import Mathlib

/-!
# Verification of the loja-api order workflow

Shallow embedding of the store-management backend (services
`pedidoService.ts` and `clienteService.ts`).  The relational store is
modelled as lists of rows; every service operation is a pure function on
the store returning `Except String` where the `String` is the message of
the `Error` thrown by the TypeScript code.  An `Except.error` result
models a rolled-back transaction: no partial state is ever exposed.

Numeric modelling: product stock (`estoque`) is an `Int` because the
database column has no non-negativity constraint and Prisma `decrement`
can drive it below zero; prices and totals are exact rationals;
quantities and row ids are naturals (the schema validates quantities as
positive integers and ids come from `SERIAL` columns starting at 1).
-/

set_option linter.unusedVariables false

/-- Order status enumeration (`PedidoUpdateSchema` in pedidoService.ts). -/
inductive Status where
  | PENDENTE
  | PAGO
  | PROCESSANDO
  | ENVIADO
  | ENTREGUE
  | CANCELADO
deriving DecidableEq, Repr

/-- A row of the `produtos` table (fields used by the order workflow). -/
structure Produto where
  id : Nat
  nome : String
  preco : Rat
  estoque : Int
deriving DecidableEq, Repr

/-- A row of the `clientes` table (fields used by the services). -/
structure Cliente where
  id : Nat
  nome : String
  email : String
  cpf : String
  telefone : Option String
  senha : String
deriving DecidableEq, Repr

/-- A row of the `pedidos` table. -/
structure Pedido where
  id : Nat
  clienteId : Nat
  status : Status
  total : Rat
deriving DecidableEq, Repr

/-- A row of the `pedidos_itens` table. -/
structure PedidoItem where
  id : Nat
  pedidoId : Nat
  produtoId : Nat
  quantidade : Nat
deriving DecidableEq, Repr

/-- The relational store: one list per table plus the `SERIAL`
id counters for rows the workflow creates. -/
structure Store where
  produtos : List Produto
  clientes : List Cliente
  pedidos : List Pedido
  itens : List PedidoItem
  nextPedidoId : Nat
  nextItemId : Nat
  nextClienteId : Nat
deriving DecidableEq, Repr

/-- `tx.produto.findUnique({ where: { id } })`. -/
def findProduto (st : Store) (q : Nat) : Option Produto :=
  st.produtos.find? (fun p => p.id == q)

/-- `tx.cliente.findUnique({ where: { id } })`. -/
def findCliente (st : Store) (q : Nat) : Option Cliente :=
  st.clientes.find? (fun c => c.id == q)

/-- `prisma.pedido.findUnique({ where: { id } })`. -/
def findPedido (st : Store) (q : Nat) : Option Pedido :=
  st.pedidos.find? (fun p => p.id == q)

/-- `tx.pedidoItem.findMany({ where: { pedidoId } })`. -/
def itensOf (st : Store) (oid : Nat) : List PedidoItem :=
  st.itens.filter (fun i => i.pedidoId == oid)

/-- Current stock of a product, when the product exists. -/
def estoqueOf (st : Store) (q : Nat) : Option Int :=
  (findProduto st q).map (fun p => p.estoque)

/-- Current price of a product, when the product exists. -/
def precoOf (st : Store) (q : Nat) : Option Rat :=
  (findProduto st q).map (fun p => p.preco)

/-- `tx.produto.update({ where: { id }, data: { estoque: { increment / decrement } } })`:
adds the signed `delta` to the stock of product `q`. -/
def ajustarEstoque (st : Store) (q : Nat) (delta : Int) : Store :=
  { st with produtos :=
      st.produtos.map (fun p =>
        if p.id == q then { p with estoque := p.estoque + delta } else p) }

/-- `tx.pedido.update({ where: { id }, data: { total } })`. -/
def setTotal (st : Store) (oid : Nat) (t : Rat) : Store :=
  { st with pedidos :=
      st.pedidos.map (fun p => if p.id == oid then { p with total := t } else p) }

/-- `tx.pedido.update({ where: { id }, data: { status } })`. -/
def setStatus (st : Store) (oid : Nat) (s : Status) : Store :=
  { st with pedidos :=
      st.pedidos.map (fun p => if p.id == oid then { p with status := s } else p) }

/-- The InsufficientStock message built in `PedidoService.create`:
`Estoque insuficiente para o produto NAME. Disponível: A unidades | Solicitado: R unidades`. -/
def estoqueInsuficienteMsg (nome : String) (disponivel : Int) (solicitado : Nat) : String :=
  "Estoque insuficiente para o produto " ++ nome ++ ". " ++
  "Disponível: " ++ toString disponivel ++ " unidades | " ++
  "Solicitado: " ++ toString solicitado ++ " unidades"

/-- One requested line of a create call (`{ produtoId, quantidade }`). -/
structure CreateItem where
  produtoId : Nat
  quantidade : Nat
deriving DecidableEq, Repr

/-- The "Validar estoque" loop of `PedidoService.create`: for each
requested line look the product up in the *initial* store and fail on
the first missing product or the first line whose quantity exceeds that
product's stock.  No mutation happens during this loop. -/
def validarEstoque (st : Store) : List CreateItem → Except String Unit
  | [] => .ok ()
  | it :: rest =>
    match findProduto st it.produtoId with
    | none => .error "Produto não encontrado"
    | some p =>
      if p.estoque < (it.quantidade : Int) then
        .error (estoqueInsuficienteMsg p.nome p.estoque it.quantidade)
      else
        validarEstoque st rest

/-- The "Criar itens do pedido" loop of `PedidoService.create`: create a
`pedidoItem` row and decrement the product's stock, one line at a time. -/
def criarItens (oid : Nat) : Store → List CreateItem → Store
  | st, [] => st
  | st, it :: rest =>
    let st1 : Store :=
      { st with
        itens := st.itens ++ [⟨st.nextItemId, oid, it.produtoId, it.quantidade⟩],
        nextItemId := st.nextItemId + 1 }
    criarItens oid (ajustarEstoque st1 it.produtoId (-(it.quantidade : Int))) rest

/-- The "Calcular total" step shared by create and update: fold
`soma + item.produto.preco * item.quantidade` over the order's rows,
joining each row with its product. -/
def computeTotal (st : Store) (oid : Nat) : Rat :=
  (itensOf st oid).foldl
    (fun soma it => soma + ((precoOf st it.produtoId).getD 0) * (it.quantidade : Rat)) 0

/-- `PedidoService.create`: validate customer and stock, insert the
order row (status `PENDENTE`, total defaulting to 0), insert the line
rows decrementing stock, then recompute and persist the total.  Returns
the new store together with the created order id. -/
def PedidoService.create (st : Store) (clienteId : Nat) (items : List CreateItem) :
    Except String (Store × Nat) :=
  match findCliente st clienteId with
  | none => .error "Cliente não encontrado"
  | some _ =>
    match validarEstoque st items with
    | .error e => .error e
    | .ok _ =>
      let oid := st.nextPedidoId
      let st1 : Store :=
        { st with
          pedidos := st.pedidos ++ [⟨oid, clienteId, Status.PENDENTE, 0⟩],
          nextPedidoId := st.nextPedidoId + 1 }
      let st2 := criarItens oid st1 items
      .ok (setTotal st2 oid (computeTotal st2 oid), oid)

/-- One target line of an update call (`PedidoItemUpdateSchema`):
`id` is present only on lines that already exist. -/
structure UpdateItem where
  id : Option Nat
  produtoId : Nat
  quantidade : Nat
deriving DecidableEq, Repr

/-- An update payload (`PedidoUpdateSchema`): optional status, optional
full target line set. -/
structure UpdateData where
  status : Option Status
  items : Option (List UpdateItem)
deriving DecidableEq, Repr

/-- `validated.items.filter(i => i.id)` keeps only truthy ids: in
JavaScript `0` is falsy, so an id of `0` is treated like a missing id. -/
def itemTruthyId (i : UpdateItem) : Option Nat :=
  match i.id with
  | some n => if n == 0 then none else some n
  | none => none

/-- Zod validation of one target line: `produtoId` positive,
`quantidade` positive and at most 1000. -/
def itemValido (i : UpdateItem) : Bool :=
  0 < i.produtoId && 0 < i.quantidade && i.quantidade ≤ 1000

/-- `PedidoUpdateSchema.parse` succeeds exactly when every target line
passes `itemValido` (the status field is already well-typed here). -/
def parseUpdate (d : UpdateData) : Bool :=
  match d.items with
  | none => true
  | some ts => ts.all itemValido

/-- `itensAtuais.find(i => i.id === item.id)`: the snapshot line matched
by a target line's id, if any. -/
def matchOf (targetLines : List PedidoItem) (t : UpdateItem) : Option PedidoItem :=
  match t.id with
  | some n => targetLines.find? (fun i => i.id == n)
  | none => none

/-- The removal loop of `PedidoService.update`: for each id scheduled
for removal, look the line up in the snapshot, give its quantity back to
the product's stock and delete the row. -/
def removerItens (snapshot : List PedidoItem) : Store → List Nat → Store
  | st, [] => st
  | st, rid :: rest =>
    match snapshot.find? (fun i => i.id == rid) with
    | none => removerItens snapshot st rest
    | some item =>
      let st1 := ajustarEstoque st item.produtoId (item.quantidade : Int)
      removerItens snapshot
        { st1 with itens := st1.itens.filter (fun i => !(i.id == rid)) } rest

/-- One step of the create-or-update loop of `PedidoService.update`.
A target line with no snapshot match is new: its product is resolved in
the *current* store, the line is created and stock is decremented by its
quantity (InsufficientStock when stock is smaller).  A matched line is
kept: `diff = new - old` (old from the snapshot) is checked against the
current stock only when positive, the line's quantity is overwritten and
stock is decremented by `diff`. -/
def processarItem (snapshot : List PedidoItem) (oid : Nat) (st : Store) (t : UpdateItem) :
    Except String Store :=
  match matchOf snapshot t with
  | none =>
    match findProduto st t.produtoId with
    | none => .error "Produto não encontrado"
    | some p =>
      if p.estoque < (t.quantidade : Int) then
        .error "Estoque insuficiente"
      else
        let st1 : Store :=
          { st with
            itens := st.itens ++ [⟨st.nextItemId, oid, t.produtoId, t.quantidade⟩],
            nextItemId := st.nextItemId + 1 }
        .ok (ajustarEstoque st1 t.produtoId (-(t.quantidade : Int)))
  | some existente =>
    let diff : Int := (t.quantidade : Int) - (existente.quantidade : Int)
    match findProduto st existente.produtoId with
    | none => .error "Produto não encontrado"
    | some p =>
      if diff > 0 ∧ p.estoque < diff then
        .error "Estoque insuficiente"
      else
        let st1 : Store :=
          { st with
            itens := st.itens.map (fun i =>
              if i.id == existente.id then { i with quantidade := t.quantidade } else i) }
        .ok (ajustarEstoque st1 existente.produtoId (-diff))

/-- The create-or-update loop over all target lines, left to right,
stopping at the first error. -/
def processarItens (snapshot : List PedidoItem) (oid : Nat) :
    Store → List UpdateItem → Except String Store
  | st, [] => .ok st
  | st, t :: rest =>
    match processarItem snapshot oid st t with
    | .error e => .error e
    | .ok st1 => processarItens snapshot oid st1 rest

/-- `PedidoService.update`: resolve the order (its lines are snapshotted
*before* the transaction), parse the payload, optionally overwrite the
status, and when a target line set is supplied reconcile it against the
snapshot (remove lines whose id was not sent, then create/update the
sent lines) and finally recompute and persist the total. -/
def PedidoService.update (st : Store) (oid : Nat) (d : UpdateData) : Except String Store :=
  match findPedido st oid with
  | none => .error "Pedido não encontrado"
  | some _ =>
    if parseUpdate d then
      let st1 : Store :=
        match d.status with
        | some s => setStatus st oid s
        | none => st
      match d.items with
      | none => .ok st1
      | some ts =>
        let snapshot := itensOf st oid
        let idsEnviados := ts.filterMap itemTruthyId
        let removeIds := (snapshot.map (fun i => i.id)).filter
          (fun x => !(idsEnviados.contains x))
        let st2 := removerItens snapshot st1 removeIds
        (processarItens snapshot oid st2 ts).map
          (fun st3 => setTotal st3 oid (computeTotal st3 oid))
    else .error "Dados inválidos"

/-- `PedidoService.delete`: only `PENDENTE` orders may be deleted; every
line's quantity is given back to its product's stock, then the lines and
the order row are removed. -/
def PedidoService.delete (st : Store) (oid : Nat) : Except String Store :=
  match findPedido st oid with
  | none => .error "Pedido não encontrado"
  | some ped =>
    if ped.status != Status.PENDENTE then
      .error "Só é possível excluir pedidos PENDENTES"
    else
      let st1 := (itensOf st oid).foldl
        (fun acc it => ajustarEstoque acc it.produtoId (it.quantidade : Int)) st
      let st2 : Store := { st1 with itens := st1.itens.filter (fun i => !(i.pedidoId == oid)) }
      .ok { st2 with pedidos := st2.pedidos.filter (fun p => !(p.id == oid)) }

/-- A validated customer-create payload (after `createClienteSchema`,
which is out of scope per the spec's input-contract assumption). -/
structure CreateClienteData where
  nome : String
  email : String
  cpf : String
  telefone : Option String
  senha : String
deriving DecidableEq, Repr

/-- `ClienteService.create`: reject a duplicate email, then a duplicate
cpf, then insert the row with the hashed password.  The hash function is
an opaque collaborator and is passed in as a parameter. -/
def ClienteService.create (hash : String → String) (st : Store) (d : CreateClienteData) :
    Except String (Store × Cliente) :=
  match st.clientes.find? (fun c => c.email == d.email) with
  | some _ => .error "Email já cadastrado"
  | none =>
    match st.clientes.find? (fun c => c.cpf == d.cpf) with
    | some _ => .error "CPF já cadastrado"
    | none =>
      let c : Cliente :=
        ⟨st.nextClienteId, d.nome, d.email, d.cpf, d.telefone, hash d.senha⟩
      .ok ({ st with clientes := st.clientes ++ [c],
                     nextClienteId := st.nextClienteId + 1 }, c)

/-! ## Derived definitions, invariants and demonstration data -/

/-- Spec-side total: `Σ line.quantity * currentPrice(line.product)` over
the order's lines. -/
def specOrderTotal (st : Store) (oid : Nat) : Rat :=
  ((itensOf st oid).map
    (fun i => (i.quantidade : Rat) * ((precoOf st i.produtoId).getD 0))).sum

/-- The order's persisted total matches the spec-side current-price sum. -/
def pedidoTotalOk (st : Store) (oid : Nat) : Prop :=
  ∀ ped ∈ st.pedidos, ped.id = oid → ped.total = specOrderTotal st oid

instance decPedidoTotalOk (st : Store) (oid : Nat) : Decidable (pedidoTotalOk st oid) := by
  unfold pedidoTotalOk
  infer_instance

/-- A sample customer row. -/
def lojaCliente : Cliente :=
  ⟨1, "Ana", "ana@exemplo.com", "12345678901", none, "h4sh"⟩

/-- A one-product one-customer store with the given initial stock for
product 1 ("Caneta", price 5). -/
def lojaStore (estoque : Int) : Store :=
  ⟨[⟨1, "Caneta", 5, estoque⟩], [lojaCliente], [], [], 1, 1, 2⟩

/-- The store after creating, in `lojaStore 10`, an order with the
single line (product 1, quantity 3): stock 7, total 15. -/
def w2Store : Store :=
  ⟨[⟨1, "Caneta", 5, 7⟩], [lojaCliente], [⟨1, 1, Status.PENDENTE, 15⟩],
   [⟨1, 1, 1, 3⟩], 2, 2, 2⟩

/-- A store holding one non-`PENDENTE` order (id 1). -/
def w7Store : Store :=
  ⟨[⟨1, "Caneta", 5, 7⟩], [lojaCliente], [⟨1, 1, Status.ENVIADO, 15⟩],
   [⟨1, 1, 1, 3⟩], 2, 2, 2⟩

/-- Total quantity requested for product `q` across a create request. -/
def reqQty (its : List CreateItem) (q : Nat) : Int :=
  (its.map (fun it => if it.produtoId == q then (it.quantidade : Int) else 0)).sum

/-- Sum of all requested line quantities. -/
def totalQty (its : List CreateItem) : Nat :=
  (its.map (fun it => it.quantidade)).sum

/-- Total stock across all products of the store. -/
def sumEstoque (st : Store) : Int :=
  (st.produtos.map (fun p => p.estoque)).sum

/-- Quantity of product `q` held by order `oid`'s lines. -/
def lineQty (st : Store) (oid : Nat) (q : Nat) : Int :=
  ((itensOf st oid).map
    (fun i => if i.produtoId == q then (i.quantidade : Int) else 0)).sum

/-- The conserved quantity for order `oid` and product `q`: current
stock plus the stock held by the order's lines. -/
def consVal (st : Store) (oid : Nat) (q : Nat) : Option Int :=
  (estoqueOf st q).map (fun e => e + lineQty st oid q)

/-- The ids an update payload sends for its target lines (JavaScript
truthiness: id 0 counts as absent). -/
def sentIds (ts : List UpdateItem) : List Nat :=
  ts.filterMap itemTruthyId

/-- Database well-formedness: unique product and line ids, id counters
above every row id, line order-ids below the order counter, every line's
product present, and positive line ids (SERIAL columns start at 1). -/
def Wf (st : Store) : Prop :=
  (st.produtos.map (fun p => p.id)).Nodup ∧
  (st.itens.map (fun i => i.id)).Nodup ∧
  (∀ p ∈ st.pedidos, p.id < st.nextPedidoId) ∧
  (∀ i ∈ st.itens, i.id < st.nextItemId) ∧
  (∀ i ∈ st.itens, i.pedidoId < st.nextPedidoId) ∧
  (∀ i ∈ st.itens, (findProduto st i.produtoId).isSome) ∧
  (∀ i ∈ st.itens, 0 < i.id) ∧
  0 < st.nextItemId

instance decWf (st : Store) : Decidable (Wf st) := by
  unfold Wf
  infer_instance

/-- Contribution of one line row to `lineQty oid q`. -/
def itemQty (oid q : Nat) (i : PedidoItem) : Int :=
  if i.pedidoId == oid then (if i.produtoId == q then (i.quantidade : Int) else 0) else 0

/-- Driver for a sequence of update calls on the same order, stopping at
the first error (each call is `PedidoService.update`). -/
def runUpdates (oid : Nat) : Store → List UpdateData → Except String Store
  | st, [] => .ok st
  | st, d :: ds =>
    match PedidoService.update st oid d with
    | .error e => .error e
    | .ok st1 => runUpdates oid st1 ds

instance decSentOk (d : UpdateData) :
    Decidable (∀ ts, d.items = some ts → (sentIds ts).Nodup) :=
  match hd : d.items with
  | none => isTrue (by intro ts hc; simp at hc)
  | some ts0 =>
    if h : (sentIds ts0).Nodup then
      isTrue (by
        intro ts hc
        injection hc with hh
        rwa [← hh])
    else
      isFalse (by intro hall; exact h (hall ts0 rfl))

/-- The store produced by creating the scenario order (product 1,
quantity 3, price 5) in `lojaStore 10`. -/
def w5Store : Store :=
  ((PedidoService.create (lojaStore 10) 1 [⟨1, 3⟩]).toOption.map Prod.fst).getD
    (lojaStore 10)

/-- The scenario update payload: resize the single kept line to
quantity 5. -/
def w8Data : UpdateData := ⟨none, some [⟨some 1, 1, 5⟩]⟩

/-- The store after the scenario update. -/
def w8Store2 : Store := (runUpdates 1 w5Store [w8Data]).toOption.getD w5Store

/-- The store after the scenario delete. -/
def w8Store3 : Store := (PedidoService.delete w8Store2 1).toOption.getD w8Store2

/-- The product a target line acts upon: the matched snapshot line's
product for a kept line (the sent `produtoId` is ignored in that case by
the code), the sent product for a new line. -/
def effProdId (L : List PedidoItem) (t : UpdateItem) : Nat :=
  match matchOf L t with
  | some l => l.produtoId
  | none => t.produtoId

/-- The stock guard the code enforces for one target line, phrased
against a reference store: a new line needs `quantidade ≤ stock`; a kept
line whose quantity grows needs `newQuantity - oldQuantity ≤ stock`. -/
def guardOk (stref : Store) (L : List PedidoItem) (t : UpdateItem) : Bool :=
  match matchOf L t with
  | none =>
    match findProduto stref t.produtoId with
    | none => true
    | some p => decide ((t.quantidade : Int) ≤ p.estoque)
  | some l =>
    match findProduto stref l.produtoId with
    | none => true
    | some p => decide ((l.quantidade : Int) < (t.quantidade : Int) →
        (t.quantidade : Int) - (l.quantidade : Int) ≤ p.estoque)

/-- Net change the create-or-update loop makes to the stock each order
line holds of product `q`: a kept line contributes the signed difference
`new - old`, a new line contributes its quantity. -/
def tsDelta (L : List PedidoItem) (ts : List UpdateItem) (q : Nat) : Int :=
  (ts.map (fun t =>
    match matchOf L t with
    | some l => if l.produtoId == q then (t.quantidade : Int) - (l.quantidade : Int) else 0
    | none => if t.produtoId == q then (t.quantidade : Int) else 0)).sum

/-- The lines the update removes: snapshot lines whose id is not among
the sent (truthy) ids. -/
def removedLines (st : Store) (oid : Nat) (ts : List UpdateItem) : List PedidoItem :=
  (itensOf st oid).filter (fun l => !((sentIds ts).contains l.id))

/-- Stock of product `q` given back by the removal loop. -/
def remQty (st : Store) (oid : Nat) (ts : List UpdateItem) (q : Nat) : Int :=
  ((removedLines st oid ts).map
    (fun l => if l.produtoId == q then (l.quantidade : Int) else 0)).sum

/-! ## Basic frame and lookup lemmas -/

theorem ajustarEstoque_itens (st : Store) (q : Nat) (d : Int) :
    (ajustarEstoque st q d).itens = st.itens := rfl

theorem ajustarEstoque_pedidos (st : Store) (q : Nat) (d : Int) :
    (ajustarEstoque st q d).pedidos = st.pedidos := rfl

theorem setTotal_produtos (st : Store) (oid : Nat) (t : Rat) :
    (setTotal st oid t).produtos = st.produtos := rfl

theorem setTotal_itens (st : Store) (oid : Nat) (t : Rat) :
    (setTotal st oid t).itens = st.itens := rfl

theorem setStatus_produtos (st : Store) (oid : Nat) (s : Status) :
    (setStatus st oid s).produtos = st.produtos := rfl

theorem setStatus_itens (st : Store) (oid : Nat) (s : Status) :
    (setStatus st oid s).itens = st.itens := rfl

theorem findProduto_eq_some_id {st : Store} {r : Nat} {p : Produto}
    (h : findProduto st r = some p) : p.id = r := by
  have := List.find?_some h
  simpa using this

theorem findPedido_eq_some_id {st : Store} {r : Nat} {p : Pedido}
    (h : findPedido st r = some p) : p.id = r := by
  have := List.find?_some h
  simpa using this

theorem findProduto_mem {st : Store} {r : Nat} {p : Produto}
    (h : findProduto st r = some p) : p ∈ st.produtos :=
  List.mem_of_find?_eq_some h

theorem findPedido_mem {st : Store} {r : Nat} {p : Pedido}
    (h : findPedido st r = some p) : p ∈ st.pedidos :=
  List.mem_of_find?_eq_some h

theorem findProduto_ajustar (st : Store) (q : Nat) (d : Int) (r : Nat) :
    findProduto (ajustarEstoque st q d) r =
      (findProduto st r).map
        (fun p => if p.id == q then { p with estoque := p.estoque + d } else p) := by
  unfold findProduto ajustarEstoque
  rw [List.find?_map]
  have hp : ((fun p : Produto => p.id == r) ∘
      (fun p => if p.id == q then { p with estoque := p.estoque + d } else p)) =
      (fun p : Produto => p.id == r) := by
    funext p
    by_cases h : p.id = q <;> simp [h, Function.comp]
  rw [hp]

theorem estoqueOf_ajustar (st : Store) (q : Nat) (d : Int) (r : Nat) :
    estoqueOf (ajustarEstoque st q d) r =
      if r = q then (estoqueOf st r).map (fun e => e + d) else estoqueOf st r := by
  unfold estoqueOf
  rw [findProduto_ajustar]
  cases h : findProduto st r with
  | none => by_cases hrq : r = q <;> simp [hrq]
  | some p =>
    have hid : p.id = r := findProduto_eq_some_id h
    by_cases hrq : r = q <;> simp [hid, hrq]

theorem precoOf_ajustar (st : Store) (q : Nat) (d : Int) (r : Nat) :
    precoOf (ajustarEstoque st q d) r = precoOf st r := by
  unfold precoOf
  rw [findProduto_ajustar]
  cases h : findProduto st r with
  | none => rfl
  | some p => by_cases hq : p.id = q <;> simp [hq]

theorem produtoIds_ajustar (st : Store) (q : Nat) (d : Int) :
    (ajustarEstoque st q d).produtos.map (fun p => p.id) =
      st.produtos.map (fun p => p.id) := by
  unfold ajustarEstoque
  simp only [List.map_map]
  apply List.map_congr_left
  intro p _
  by_cases h : p.id = q <;> simp [h, Function.comp]

theorem findPedido_setTotal (st : Store) (oid : Nat) (t : Rat) (r : Nat) :
    findPedido (setTotal st oid t) r =
      (findPedido st r).map
        (fun p => if p.id == oid then { p with total := t } else p) := by
  unfold findPedido setTotal
  rw [List.find?_map]
  have hp : ((fun p : Pedido => p.id == r) ∘
      (fun p => if p.id == oid then { p with total := t } else p)) =
      (fun p : Pedido => p.id == r) := by
    funext p
    by_cases h : p.id = oid <;> simp [h, Function.comp]
  rw [hp]

theorem findPedido_setStatus (st : Store) (oid : Nat) (s : Status) (r : Nat) :
    findPedido (setStatus st oid s) r =
      (findPedido st r).map
        (fun p => if p.id == oid then { p with status := s } else p) := by
  unfold findPedido setStatus
  rw [List.find?_map]
  have hp : ((fun p : Pedido => p.id == r) ∘
      (fun p => if p.id == oid then { p with status := s } else p)) =
      (fun p : Pedido => p.id == r) := by
    funext p
    by_cases h : p.id = oid <;> simp [h, Function.comp]
  rw [hp]

/-! ## The order total: code-side fold versus spec-side sum -/


theorem foldl_add_eq_sum {α : Type} (f : α → Rat) (l : List α) (a : Rat) :
    l.foldl (fun s x => s + f x) a = a + (l.map f).sum := by
  induction l generalizing a with
  | nil => simp
  | cons hd tl ih => simp [ih, add_assoc]

theorem computeTotal_eq_spec (st : Store) (oid : Nat) :
    computeTotal st oid = specOrderTotal st oid := by
  unfold computeTotal specOrderTotal
  rw [foldl_add_eq_sum]
  rw [zero_add]
  congr 1
  apply List.map_congr_left
  intro i _
  exact mul_comm _ _

theorem specOrderTotal_congr {st st' : Store} (oid : Nat)
    (h1 : st'.itens = st.itens) (h2 : st'.produtos = st.produtos) :
    specOrderTotal st' oid = specOrderTotal st oid := by
  unfold specOrderTotal itensOf precoOf findProduto
  rw [h1, h2]


theorem pedidoTotalOk_setTotal (st : Store) (oid : Nat) :
    pedidoTotalOk (setTotal st oid (computeTotal st oid)) oid := by
  intro ped hmem hid
  unfold setTotal at hmem
  simp only [List.mem_map] at hmem
  obtain ⟨p0, _, rfl⟩ := hmem
  rw [specOrderTotal_congr oid (setTotal_itens st oid _) (setTotal_produtos st oid _)]
  by_cases h : p0.id = oid
  · simp [h, computeTotal_eq_spec]
  · simp [h] at hid

theorem except_map_ok {ε α β : Type} {f : α → β} {e : Except ε α} {b : β}
    (h : Except.map f e = .ok b) : ∃ a, e = .ok a ∧ b = f a := by
  cases e with
  | error x => simp [Except.map] at h
  | ok a =>
    refine ⟨a, rfl, ?_⟩
    simp [Except.map] at h
    exact h.symm

/-! ## Claim C2: totals after create and update -/

/-- C2: after any successful create, after any successful update that
supplies a target line set, and after any successful status-only update
on an order whose stored total was already correct, the order's
persisted total equals `Σ line.quantity * currentPrice(line.product)`
over its lines.  (An error result models a rolled-back transaction, so
only `.ok` results are observable states.) -/
theorem order_total_correct_after_create_and_update :
    (∀ st cid items st' oid,
      PedidoService.create st cid items = .ok (st', oid) → pedidoTotalOk st' oid) ∧
    (∀ st oid s ts st',
      PedidoService.update st oid ⟨s, some ts⟩ = .ok st' → pedidoTotalOk st' oid) ∧
    (∀ st oid s st', pedidoTotalOk st oid →
      PedidoService.update st oid ⟨some s, none⟩ = .ok st' → pedidoTotalOk st' oid) := by
  refine ⟨?_, ?_, ?_⟩
  · intro st cid items st' oid h
    cases hc : findCliente st cid with
    | none => simp [PedidoService.create, hc] at h
    | some c =>
      cases hv : validarEstoque st items with
      | error e => simp [PedidoService.create, hc, hv] at h
      | ok u =>
        simp only [PedidoService.create, hc, hv, Except.ok.injEq, Prod.mk.injEq] at h
        obtain ⟨h1, h2⟩ := h
        subst h1
        subst h2
        exact pedidoTotalOk_setTotal _ _
  · intro st oid s ts st' h
    cases hp : findPedido st oid with
    | none => simp [PedidoService.update, hp] at h
    | some ped =>
      simp only [PedidoService.update, hp] at h
      by_cases hpar : parseUpdate ⟨s, some ts⟩
      · rw [if_pos hpar] at h
        obtain ⟨st3, hproc, rfl⟩ := except_map_ok h
        exact pedidoTotalOk_setTotal _ _
      · rw [if_neg hpar] at h
        simp at h
  · intro st oid s st' hok h
    cases hp : findPedido st oid with
    | none => simp [PedidoService.update, hp] at h
    | some ped =>
      have hpar : parseUpdate ⟨some s, none⟩ = true := rfl
      simp only [PedidoService.update, hp, hpar, if_pos, Except.ok.injEq] at h
      subst h
      intro q hmem hid
      unfold setStatus at hmem
      simp only [List.mem_map] at hmem
      obtain ⟨p0, hp0, rfl⟩ := hmem
      rw [specOrderTotal_congr oid (setStatus_itens st oid s) (setStatus_produtos st oid s)]
      by_cases hq : p0.id = oid
      · simpa [hq] using hok p0 hp0 hq
      · simp [hq] at hid

/-! ## Claim C7: delete guards -/

/-- C7: deleting a non-existent order fails with NotFound; deleting an
order whose status is not `PENDENTE` fails with the InvalidState message
"Só é possível excluir pedidos PENDENTES".  Both checks run before any
mutation, and an error result carries no state change. -/
theorem delete_guards :
    (∀ st oid, findPedido st oid = none →
      PedidoService.delete st oid = .error "Pedido não encontrado") ∧
    (∀ st oid ped, findPedido st oid = some ped → ped.status ≠ Status.PENDENTE →
      PedidoService.delete st oid = .error "Só é possível excluir pedidos PENDENTES") := by
  constructor
  · intro st oid h
    simp [PedidoService.delete, h]
  · intro st oid ped h hs
    simp [PedidoService.delete, h, bne_iff_ne, hs]

/-! ## Claim C9: duplicate customer email -/

/-- C9: a customer-create whose email is already present fails with the
Conflict message "Email já cadastrado" before any row is written (an
error result carries no state change, and the duplicate check precedes
every write in the source). -/
theorem cliente_create_duplicate_email_conflict (hash : String → String)
    (st : Store) (d : CreateClienteData)
    (h : ∃ c ∈ st.clientes, c.email = d.email) :
    ClienteService.create hash st d = .error "Email já cadastrado" := by
  obtain ⟨c, hc, he⟩ := h
  have hsome : (st.clientes.find? (fun c => c.email == d.email)).isSome :=
    List.find?_isSome.2 ⟨c, hc, by simp [he]⟩
  obtain ⟨x, hx⟩ := Option.isSome_iff_exists.1 hsome
  unfold ClienteService.create
  rw [hx]

/-! ## Claim C10: status-only update frame -/

/-- C10: an update that supplies only a status leaves the products (all
stocks), all order lines and all customers unchanged, keeps the order's
stored total, sets its status, and leaves every other order untouched. -/
theorem status_only_update_frame (st : Store) (oid : Nat) (s : Status) (st' : Store)
    (h : PedidoService.update st oid ⟨some s, none⟩ = .ok st') :
    st'.produtos = st.produtos ∧ st'.itens = st.itens ∧ st'.clientes = st.clientes ∧
    (∃ ped, findPedido st oid = some ped ∧
      findPedido st' oid = some { ped with status := s }) ∧
    (∀ r, r ≠ oid → findPedido st' r = findPedido st r) := by
  cases hp : findPedido st oid with
  | none => simp [PedidoService.update, hp] at h
  | some ped =>
    have hpar : parseUpdate ⟨some s, none⟩ = true := rfl
    simp only [PedidoService.update, hp, hpar, if_pos] at h
    simp only [Except.ok.injEq] at h
    subst h
    have hid : ped.id = oid := findPedido_eq_some_id hp
    refine ⟨rfl, rfl, rfl, ⟨ped, rfl, ?_⟩, ?_⟩
    · rw [findPedido_setStatus, hp]
      simp [hid]
    · intro r hr
      rw [findPedido_setStatus]
      cases hq : findPedido st r with
      | none => rfl
      | some p =>
        have : p.id = r := findPedido_eq_some_id hq
        simp [this, hr]

/-! ## Concrete demonstration data -/


/-! ## Claim C1: the stock non-negativity invariant fails on duplicate lines -/

/-- C1 (violation exhibited): starting from a store whose only product
has stock 5 (non-negative), creating an order with two lines of
quantity 3 for the same product *succeeds* — the validation loop checks
each line against the initial stock before any decrement — and persists
stock -1.  The code therefore violates the `Product.stock >= 0`
invariant when a create request references the same product twice. -/
theorem create_duplicate_product_lines_drive_stock_negative :
    (∀ p ∈ (lojaStore 5).produtos, 0 ≤ p.estoque) ∧
    (PedidoService.create (lojaStore 5) 1 [⟨1, 3⟩, ⟨1, 3⟩]).toOption.map
      (fun r => estoqueOf r.1 1) = some (some (-1)) := by
  constructor
  · decide
  · decide

/-! ## Claim C4: empty line sets are not rejected -/

/-- C4 (counterexample): creating an order with an empty list of lines
against an existing customer *succeeds* and persists an order with no
lines, contradicting the claim that such a create fails. -/
theorem create_empty_lines_succeeds :
    (PedidoService.create (lojaStore 10) 1 []).toOption.map
      (fun r => ((findPedido r.1 r.2).isSome, itensOf r.1 r.2)) = some (true, []) := by
  decide

/-- C4 (amended): order creation performs no non-emptiness check: with
an existing customer, a create with an empty line list succeeds and
persists an order with status `PENDENTE`, total 0 and no lines, leaving
products and existing lines untouched. -/
theorem create_empty_lines_persists_empty_order (st : Store) (cid : Nat)
    (hc : (findCliente st cid).isSome)
    (hped : ∀ p ∈ st.pedidos, p.id ≠ st.nextPedidoId)
    (hit : ∀ i ∈ st.itens, i.pedidoId ≠ st.nextPedidoId) :
    ∃ st', PedidoService.create st cid [] = .ok (st', st.nextPedidoId) ∧
      findPedido st' st.nextPedidoId =
        some ⟨st.nextPedidoId, cid, Status.PENDENTE, 0⟩ ∧
      itensOf st' st.nextPedidoId = [] ∧
      st'.itens = st.itens ∧ st'.produtos = st.produtos := by
  obtain ⟨c, hc⟩ := Option.isSome_iff_exists.1 hc
  set oid := st.nextPedidoId with hoid
  have hval : validarEstoque st [] = .ok () := rfl
  set st1 : Store :=
    { st with
      pedidos := st.pedidos ++ [⟨oid, cid, Status.PENDENTE, 0⟩],
      nextPedidoId := st.nextPedidoId + 1 } with hst1
  have hfilter : itensOf st1 oid = [] := by
    unfold itensOf
    rw [List.filter_eq_nil_iff]
    intro i hi
    simpa using hit i hi
  have htot : computeTotal st1 oid = 0 := by
    unfold computeTotal
    rw [hfilter]
    rfl
  have hcreate : PedidoService.create st cid [] =
      .ok (setTotal st1 oid (computeTotal st1 oid), oid) := by
    simp only [PedidoService.create, hc, hval]
    rfl
  have hfind1 : findPedido st1 oid = some ⟨oid, cid, Status.PENDENTE, 0⟩ := by
    unfold findPedido
    rw [hst1]
    simp only [List.find?_append]
    have hnone : st.pedidos.find? (fun p => p.id == oid) = none := by
      rw [List.find?_eq_none]
      intro p hp
      simpa using hped p hp
    rw [hnone]
    simp
  refine ⟨setTotal st1 oid (computeTotal st1 oid), hcreate, ?_, ?_, rfl, rfl⟩
  · rw [findPedido_setTotal, hfind1, htot]
    simp
  · unfold itensOf at hfilter ⊢
    exact hfilter

/-! ## Claim C3: InsufficientStock on create -/

/-- The validation loop fails with the detailed InsufficientStock
message at the first short line when every referenced product exists. -/
theorem validarEstoque_error_of_short (st : Store) (items : List CreateItem)
    (hex : ∀ it ∈ items, (findProduto st it.produtoId).isSome)
    (hshort : ∃ it ∈ items, (estoqueOf st it.produtoId).getD 0 < (it.quantidade : Int)) :
    ∃ it ∈ items, ∃ p, findProduto st it.produtoId = some p ∧
      p.estoque < (it.quantidade : Int) ∧
      validarEstoque st items =
        .error (estoqueInsuficienteMsg p.nome p.estoque it.quantidade) := by
  induction items with
  | nil => simp at hshort
  | cons it rest ih =>
    obtain ⟨p, hp⟩ := Option.isSome_iff_exists.1 (hex it (by simp))
    by_cases hs : p.estoque < (it.quantidade : Int)
    · refine ⟨it, by simp, p, hp, hs, ?_⟩
      simp only [validarEstoque, hp, if_pos hs]
    · have hrest : ∃ i ∈ rest, (estoqueOf st i.produtoId).getD 0 < (i.quantidade : Int) := by
        obtain ⟨i, hmem, hlt⟩ := hshort
        rcases List.mem_cons.1 hmem with rfl | hmem'
        · exfalso
          apply hs
          unfold estoqueOf at hlt
          rw [hp] at hlt
          simpa using hlt
        · exact ⟨i, hmem', hlt⟩
      obtain ⟨i, hmem', p', hp', hs', heq⟩ :=
        ih (fun x hx => hex x (List.mem_cons_of_mem _ hx)) hrest
      refine ⟨i, List.mem_cons_of_mem _ hmem', p', hp', hs', ?_⟩
      simp only [validarEstoque, hp, if_neg hs]
      exact heq

/-- C3: when the customer exists, every line's product exists and some
line's quantity exceeds that product's stock, create fails with the
InsufficientStock message naming the product, its available stock and
the requested quantity (the message of the first such line); the error
aborts the transaction, so no stock, order or line mutation persists. -/
theorem create_insufficient_stock_fails_with_message (st : Store) (cid : Nat)
    (items : List CreateItem)
    (hc : (findCliente st cid).isSome)
    (hex : ∀ it ∈ items, (findProduto st it.produtoId).isSome)
    (hshort : ∃ it ∈ items, (estoqueOf st it.produtoId).getD 0 < (it.quantidade : Int)) :
    ∃ it ∈ items, ∃ p, findProduto st it.produtoId = some p ∧
      p.estoque < (it.quantidade : Int) ∧
      PedidoService.create st cid items =
        .error (estoqueInsuficienteMsg p.nome p.estoque it.quantidade) := by
  obtain ⟨c, hc⟩ := Option.isSome_iff_exists.1 hc
  obtain ⟨it, hmem, p, hp, hs, heq⟩ := validarEstoque_error_of_short st items hex hshort
  refine ⟨it, hmem, p, hp, hs, ?_⟩
  simp only [PedidoService.create, hc, heq]

/-! ## Witnesses for the claims settled so far -/


theorem order_total_witness :
    pedidoTotalOk (setStatus w2Store 1 Status.ENVIADO) 1 :=
  order_total_correct_after_create_and_update.2.2 w2Store 1 Status.ENVIADO
    (setStatus w2Store 1 Status.ENVIADO)
    (by
      intro ped hmem hid
      have hped : ped = ⟨1, 1, Status.PENDENTE, 15⟩ := by
        simpa [w2Store] using hmem
      subst hped
      simp [specOrderTotal, itensOf, precoOf, findProduto, w2Store]
      norm_num)
    rfl

theorem create_insufficient_witness :
    ∃ it ∈ [(⟨1, 9⟩ : CreateItem)], ∃ p,
      findProduto (lojaStore 5) it.produtoId = some p ∧
      p.estoque < (it.quantidade : Int) ∧
      PedidoService.create (lojaStore 5) 1 [⟨1, 9⟩] =
        .error (estoqueInsuficienteMsg p.nome p.estoque it.quantidade) :=
  create_insufficient_stock_fails_with_message (lojaStore 5) 1 [⟨1, 9⟩]
    (by decide) (by decide) (by decide)

theorem create_empty_lines_witness :
    ∃ st', PedidoService.create (lojaStore 10) 1 [] =
        .ok (st', (lojaStore 10).nextPedidoId) ∧
      findPedido st' (lojaStore 10).nextPedidoId =
        some ⟨(lojaStore 10).nextPedidoId, 1, Status.PENDENTE, 0⟩ ∧
      itensOf st' (lojaStore 10).nextPedidoId = [] ∧
      st'.itens = (lojaStore 10).itens ∧ st'.produtos = (lojaStore 10).produtos :=
  create_empty_lines_persists_empty_order (lojaStore 10) 1
    (by decide) (by decide) (by decide)


theorem delete_guards_witness :
    PedidoService.delete w7Store 2 = .error "Pedido não encontrado" ∧
    PedidoService.delete w7Store 1 = .error "Só é possível excluir pedidos PENDENTES" :=
  ⟨delete_guards.1 w7Store 2 (by decide),
   delete_guards.2 w7Store 1 ⟨1, 1, Status.ENVIADO, 15⟩ (by decide) (by decide)⟩

theorem cliente_dup_email_witness :
    ClienteService.create id (lojaStore 10)
      ⟨"Bia", "ana@exemplo.com", "98765432100", none, "s3nh4"⟩ =
      .error "Email já cadastrado" :=
  cliente_create_duplicate_email_conflict id (lojaStore 10)
    ⟨"Bia", "ana@exemplo.com", "98765432100", none, "s3nh4"⟩
    ⟨lojaCliente, by decide, by decide⟩

theorem status_only_update_witness :
    (setStatus w2Store 1 Status.CANCELADO).produtos = w2Store.produtos ∧
    (setStatus w2Store 1 Status.CANCELADO).itens = w2Store.itens ∧
    (setStatus w2Store 1 Status.CANCELADO).clientes = w2Store.clientes ∧
    (∃ ped, findPedido w2Store 1 = some ped ∧
      findPedido (setStatus w2Store 1 Status.CANCELADO) 1 =
        some { ped with status := Status.CANCELADO }) ∧
    (∀ r, r ≠ 1 → findPedido (setStatus w2Store 1 Status.CANCELADO) r =
      findPedido w2Store r) :=
  status_only_update_frame w2Store 1 Status.CANCELADO
    (setStatus w2Store 1 Status.CANCELADO) rfl

/-! ## Claim C5: effects of a successful create -/


theorem validarEstoque_ok_products (st : Store) (items : List CreateItem)
    (h : validarEstoque st items = .ok ()) :
    ∀ it ∈ items, (findProduto st it.produtoId).isSome := by
  revert h
  induction items with
  | nil =>
    intro h it hit
    simp at hit
  | cons a rest ih =>
    intro h it hit
    cases hp : findProduto st a.produtoId with
    | none => simp [validarEstoque, hp] at h
    | some p =>
      by_cases hs : p.estoque < (a.quantidade : Int)
      · simp [validarEstoque, hp, if_pos hs] at h
      · rcases List.mem_cons.1 hit with rfl | hmem
        · simp [hp]
        · have h' : validarEstoque st rest = .ok () := by
            simpa [validarEstoque, hp, if_neg hs] using h
          exact ih h' it hmem

theorem estoqueOf_criarItens (oid : Nat) (q : Nat) :
    ∀ (its : List CreateItem) (st : Store),
      estoqueOf (criarItens oid st its) q =
        (estoqueOf st q).map (fun e => e - reqQty its q) := by
  intro its
  induction its with
  | nil =>
    intro st
    cases h : estoqueOf st q <;> simp [criarItens, reqQty, h]
  | cons it rest ih =>
    intro st
    show estoqueOf (criarItens oid (ajustarEstoque _ it.produtoId (-(it.quantidade : Int))) rest) q = _
    rw [ih]
    have hbase : estoqueOf
        (ajustarEstoque
          { st with
            itens := st.itens ++ [⟨st.nextItemId, oid, it.produtoId, it.quantidade⟩],
            nextItemId := st.nextItemId + 1 }
          it.produtoId (-(it.quantidade : Int))) q =
        if q = it.produtoId then (estoqueOf st q).map (fun e => e + -(it.quantidade : Int))
        else estoqueOf st q := estoqueOf_ajustar _ _ _ _
    rw [hbase]
    by_cases hq : q = it.produtoId
    · rw [if_pos hq]
      have hbq : (it.produtoId == q) = true := by
        rw [beq_iff_eq]
        exact hq.symm
      have hreq : reqQty (it :: rest) q = (it.quantidade : Int) + reqQty rest q := by
        simp only [reqQty, List.map_cons, List.sum_cons, hbq, if_true]
      rw [hreq]
      cases h : estoqueOf st q with
      | none => rfl
      | some e =>
        simp only [Option.map_some']
        congr 1
        ring
    · rw [if_neg hq]
      have hne : (it.produtoId == q) = false := by
        rw [beq_eq_false_iff_ne]
        exact fun hc => hq hc.symm
      have hreq : reqQty (it :: rest) q = reqQty rest q := by
        simp [reqQty, hne]
        exact fun hc => absurd hc.symm hq
      rw [hreq]

theorem itensOf_criarItens_proj (oid : Nat) :
    ∀ (its : List CreateItem) (st : Store),
      (itensOf (criarItens oid st its) oid).map (fun i => (i.produtoId, i.quantidade)) =
        (itensOf st oid).map (fun i => (i.produtoId, i.quantidade)) ++
          its.map (fun c => (c.produtoId, c.quantidade)) := by
  intro its
  induction its with
  | nil =>
    intro st
    simp [criarItens]
  | cons it rest ih =>
    intro st
    show (itensOf (criarItens oid (ajustarEstoque _ it.produtoId _) rest) oid).map _ = _
    rw [ih]
    have hitens : itensOf
        (ajustarEstoque
          { st with
            itens := st.itens ++ [⟨st.nextItemId, oid, it.produtoId, it.quantidade⟩],
            nextItemId := st.nextItemId + 1 }
          it.produtoId (-(it.quantidade : Int))) oid =
        itensOf st oid ++ [⟨st.nextItemId, oid, it.produtoId, it.quantidade⟩] := by
      unfold itensOf ajustarEstoque
      simp
    rw [hitens]
    simp

theorem criarItens_pedidos (oid : Nat) :
    ∀ (its : List CreateItem) (st : Store), (criarItens oid st its).pedidos = st.pedidos := by
  intro its
  induction its with
  | nil => intro st; rfl
  | cons it rest ih => intro st; exact ih _

theorem criarItens_produtoIds (oid : Nat) :
    ∀ (its : List CreateItem) (st : Store),
      (criarItens oid st its).produtos.map (fun p => p.id) =
        st.produtos.map (fun p => p.id) := by
  intro its
  induction its with
  | nil => intro st; rfl
  | cons it rest ih =>
    intro st
    show (criarItens oid (ajustarEstoque _ it.produtoId _) rest).produtos.map _ = _
    rw [ih]
    exact produtoIds_ajustar _ _ _

theorem countP_id_eq_one {l : List Produto} {x : Produto}
    (hn : (l.map (fun p => p.id)).Nodup) (hx : x ∈ l) :
    l.countP (fun p => p.id == x.id) = 1 := by
  induction l with
  | nil => simp at hx
  | cons a rest ih =>
    rw [List.map_cons, List.nodup_cons] at hn
    by_cases ha : a.id = x.id
    · have hzero : rest.countP (fun p => p.id == x.id) = 0 := by
        rw [List.countP_eq_zero]
        intro p hp
        simp only [beq_iff_eq]
        intro hc
        exact hn.1 (by rw [ha, ← hc]; exact List.mem_map_of_mem _ hp)
      simp [List.countP_cons, ha, hzero]
    · have hx' : x ∈ rest := by
        rcases List.mem_cons.1 hx with rfl | h
        · exact absurd rfl ha
        · exact h
      have : rest.countP (fun p => p.id == x.id) = 1 := ih hn.2 hx'
      simp [List.countP_cons, ha, this]

theorem sum_estoque_map_list (q : Nat) (d : Int) (l : List Produto) :
    ((l.map (fun p => if p.id == q then { p with estoque := p.estoque + d } else p)).map
      (fun p => p.estoque)).sum =
      (l.map (fun p => p.estoque)).sum + (l.countP (fun p => p.id == q) : Int) * d := by
  induction l with
  | nil => simp
  | cons a rest ih =>
    by_cases ha : (a.id == q) = true
    · simp only [List.map_cons, List.sum_cons, List.countP_cons, ha, if_true, ih]
      push_cast
      ring
    · rw [Bool.not_eq_true] at ha
      simp only [List.map_cons, List.sum_cons, List.countP_cons, ha, if_false, ih]
      push_cast
      ring

theorem sumEstoque_ajustar (st : Store) (q : Nat) (d : Int) :
    sumEstoque (ajustarEstoque st q d) =
      sumEstoque st + (st.produtos.countP (fun p => p.id == q) : Int) * d :=
  sum_estoque_map_list q d st.produtos

theorem findProduto_isSome_ajustar (st : Store) (q : Nat) (d : Int) (r : Nat) :
    (findProduto (ajustarEstoque st q d) r).isSome = (findProduto st r).isSome := by
  rw [findProduto_ajustar]
  cases findProduto st r <;> simp

theorem sumEstoque_criarItens (oid : Nat) :
    ∀ (its : List CreateItem) (st : Store),
      (st.produtos.map (fun p => p.id)).Nodup →
      (∀ it ∈ its, (findProduto st it.produtoId).isSome) →
      sumEstoque (criarItens oid st its) = sumEstoque st - (totalQty its : Int) := by
  intro its
  induction its with
  | nil =>
    intro st _ _
    simp [criarItens, totalQty]
  | cons it rest ih =>
    intro st hn hex
    show sumEstoque (criarItens oid
      (ajustarEstoque
        { st with
          itens := st.itens ++ [⟨st.nextItemId, oid, it.produtoId, it.quantidade⟩],
          nextItemId := st.nextItemId + 1 }
        it.produtoId (-(it.quantidade : Int))) rest) = _
    have hn' : ((ajustarEstoque
        { st with
          itens := st.itens ++ [⟨st.nextItemId, oid, it.produtoId, it.quantidade⟩],
          nextItemId := st.nextItemId + 1 }
        it.produtoId (-(it.quantidade : Int))).produtos.map (fun p => p.id)).Nodup := by
      rw [produtoIds_ajustar]
      exact hn
    have hex' : ∀ x ∈ rest, (findProduto (ajustarEstoque
        { st with
          itens := st.itens ++ [⟨st.nextItemId, oid, it.produtoId, it.quantidade⟩],
          nextItemId := st.nextItemId + 1 }
        it.produtoId (-(it.quantidade : Int))) x.produtoId).isSome := by
      intro x hx
      rw [findProduto_isSome_ajustar]
      exact hex x (List.mem_cons_of_mem _ hx)
    rw [ih _ hn' hex', sumEstoque_ajustar]
    obtain ⟨p, hp⟩ := Option.isSome_iff_exists.1 (hex it (by simp))
    have hpid : p.id = it.produtoId := findProduto_eq_some_id hp
    have hcount : st.produtos.countP (fun x => x.id == it.produtoId) = 1 := by
      have hone := countP_id_eq_one hn (findProduto_mem hp)
      rwa [hpid] at hone
    have hsb : sumEstoque
        { st with
          itens := st.itens ++ [⟨st.nextItemId, oid, it.produtoId, it.quantidade⟩],
          nextItemId := st.nextItemId + 1 } = sumEstoque st := rfl
    have hpb : ({ st with
          itens := st.itens ++ [⟨st.nextItemId, oid, it.produtoId, it.quantidade⟩],
          nextItemId := st.nextItemId + 1 } : Store).produtos = st.produtos := rfl
    rw [hsb, hpb, hcount]
    have htq : totalQty (it :: rest) = it.quantidade + totalQty rest := by
      simp [totalQty]
    rw [htq]
    push_cast
    ring

/-- C5: every successful create returns the fresh order id, persists the
order with status `PENDENTE`, creates exactly one line per requested
line (same product and quantity, in order), decrements every product's
stock by exactly the total quantity requested for it, and decreases the
store-wide stock sum by exactly the sum of the requested quantities. -/
theorem create_success_effects (st : Store) (cid : Nat) (items : List CreateItem)
    (st' : Store) (oid : Nat)
    (hnodup : (st.produtos.map (fun p => p.id)).Nodup)
    (hpedfresh : ∀ p ∈ st.pedidos, p.id ≠ st.nextPedidoId)
    (hitfresh : ∀ i ∈ st.itens, i.pedidoId ≠ st.nextPedidoId)
    (h : PedidoService.create st cid items = .ok (st', oid)) :
    oid = st.nextPedidoId ∧
    (∃ t, findPedido st' oid = some ⟨oid, cid, Status.PENDENTE, t⟩) ∧
    ((itensOf st' oid).map (fun i => (i.produtoId, i.quantidade)) =
      items.map (fun c => (c.produtoId, c.quantidade))) ∧
    (∀ q, estoqueOf st' q = (estoqueOf st q).map (fun e => e - reqQty items q)) ∧
    sumEstoque st' = sumEstoque st - (totalQty items : Int) := by
  cases hc : findCliente st cid with
  | none => simp [PedidoService.create, hc] at h
  | some c =>
    cases hv : validarEstoque st items with
    | error e => simp [PedidoService.create, hc, hv] at h
    | ok u =>
      simp only [PedidoService.create, hc, hv, Except.ok.injEq, Prod.mk.injEq] at h
      obtain ⟨h1, h2⟩ := h
      subst h1
      subst h2
      set nid := st.nextPedidoId with hnid
      set st1 : Store :=
        { st with
          pedidos := st.pedidos ++ [⟨nid, cid, Status.PENDENTE, 0⟩],
          nextPedidoId := nid + 1 } with hst1
      set st2 := criarItens nid st1 items with hst2
      have hfind2 : findPedido st2 nid = some ⟨nid, cid, Status.PENDENTE, 0⟩ := by
        unfold findPedido
        rw [hst2, criarItens_pedidos, hst1]
        simp only [List.find?_append]
        have hnone : st.pedidos.find? (fun p => p.id == nid) = none := by
          rw [List.find?_eq_none]
          intro p hp
          simpa using hpedfresh p hp
        rw [hnone]
        simp
      refine ⟨rfl, ?_, ?_, ?_, ?_⟩
      · refine ⟨computeTotal st2 nid, ?_⟩
        rw [findPedido_setTotal, hfind2]
        simp
      · have hempty : itensOf st1 nid = [] := by
          unfold itensOf
          rw [List.filter_eq_nil_iff]
          intro i hi
          simpa using hitfresh i hi
        have hproj := itensOf_criarItens_proj nid items st1
        rw [hempty] at hproj
        simpa using hproj
      · intro q
        exact estoqueOf_criarItens nid q items st1
      · have hex : ∀ it ∈ items, (findProduto st1 it.produtoId).isSome :=
          validarEstoque_ok_products st items hv
        exact sumEstoque_criarItens nid items st1 hnodup hex

/-! ## Claim C8: stock conservation through create / update / delete -/


theorem sum_map_filter_eq (p : PedidoItem → Bool) (f : PedidoItem → Int) :
    ∀ l : List PedidoItem,
      ((l.filter p).map f).sum = (l.map (fun i => if p i then f i else 0)).sum := by
  intro l
  induction l with
  | nil => simp
  | cons a rest ih =>
    by_cases ha : p a = true
    · simp [List.filter_cons, ha, ih]
    · rw [Bool.not_eq_true] at ha
      simp [List.filter_cons, ha, ih]

theorem sum_map_erase_by_id (f : PedidoItem → Int) :
    ∀ (l : List PedidoItem), (l.map (fun i => i.id)).Nodup → ∀ it ∈ l,
      ((l.filter (fun i => !(i.id == it.id))).map f).sum = (l.map f).sum - f it := by
  intro l
  induction l with
  | nil => intro _ it hit; simp at hit
  | cons a rest ih =>
    intro hn it hit
    rw [List.map_cons, List.nodup_cons] at hn
    by_cases ha : (a.id == it.id) = true
    · have hae : it = a := by
        rcases List.mem_cons.1 hit with rfl | hmem
        · rfl
        · exfalso
          apply hn.1
          rw [beq_iff_eq] at ha
          rw [ha]
          exact List.mem_map_of_mem _ hmem
      subst hae
      have hrest : rest.filter (fun i => !(i.id == it.id)) = rest := by
        rw [List.filter_eq_self]
        intro i hi
        simp only [Bool.not_eq_true', beq_eq_false_iff_ne]
        intro hc
        exact hn.1 (hc ▸ List.mem_map_of_mem _ hi)
      simp [List.filter_cons, ha, hrest]
    · have hit' : it ∈ rest := by
        rcases List.mem_cons.1 hit with rfl | hmem
        · simp at ha
        · exact hmem
      rw [Bool.not_eq_true] at ha
      simp only [List.filter_cons, ha, Bool.not_false, if_true, List.map_cons,
        List.sum_cons, ih hn.2 it hit']
      ring

theorem sum_map_modify_by_id (f : PedidoItem → Int) (g : PedidoItem → PedidoItem)
    (hg : ∀ i, (g i).id = i.id) :
    ∀ (l : List PedidoItem), (l.map (fun i => i.id)).Nodup → ∀ it ∈ l,
      ((l.map (fun i => if i.id == it.id then g i else i)).map f).sum =
        (l.map f).sum - f it + f (g it) := by
  intro l
  induction l with
  | nil => intro _ it hit; simp at hit
  | cons a rest ih =>
    intro hn it hit
    rw [List.map_cons, List.nodup_cons] at hn
    by_cases ha : (a.id == it.id) = true
    · have hae : it = a := by
        rcases List.mem_cons.1 hit with rfl | hmem
        · rfl
        · exfalso
          apply hn.1
          rw [beq_iff_eq] at ha
          rw [ha]
          exact List.mem_map_of_mem _ hmem
      subst hae
      have hrest : rest.map (fun i => if i.id == it.id then g i else i) = rest.map id := by
        apply List.map_congr_left
        intro i hi
        have hf : (i.id == it.id) = false := by
          rw [beq_eq_false_iff_ne]
          intro hc
          exact hn.1 (hc ▸ List.mem_map_of_mem _ hi)
        rw [hf]
        rfl
      rw [List.map_id] at hrest
      simp only [List.map_cons, ha, if_true, hrest, List.sum_cons]
      ring
    · have hit' : it ∈ rest := by
        rcases List.mem_cons.1 hit with rfl | hmem
        · simp at ha
        · exact hmem
      rw [Bool.not_eq_true] at ha
      simp only [List.map_cons, ha, Bool.false_eq_true, if_false, List.sum_cons,
        ih hn.2 it hit']
      ring


theorem lineQty_eq (st : Store) (oid q : Nat) :
    lineQty st oid q = (st.itens.map (itemQty oid q)).sum := by
  unfold lineQty itensOf itemQty
  exact sum_map_filter_eq _ _ _

theorem removerItens_effects (L : List PedidoItem) (oid : Nat) :
    ∀ (rids : List Nat) (stc : Store),
      rids.Nodup →
      (∀ rid ∈ rids, (L.find? (fun i => i.id == rid)).isSome) →
      (∀ rid ∈ rids, ∀ it, L.find? (fun i => i.id == rid) = some it →
        it ∈ stc.itens ∧ it.pedidoId = oid) →
      (stc.itens.map (fun i => i.id)).Nodup →
      (removerItens L stc rids).produtos.map (fun p => p.id) =
          stc.produtos.map (fun p => p.id) ∧
      (removerItens L stc rids).itens =
          stc.itens.filter (fun i => !(rids.contains i.id)) ∧
      (removerItens L stc rids).pedidos = stc.pedidos ∧
      (removerItens L stc rids).clientes = stc.clientes ∧
      (removerItens L stc rids).nextPedidoId = stc.nextPedidoId ∧
      (removerItens L stc rids).nextItemId = stc.nextItemId ∧
      (∀ r, (findProduto (removerItens L stc rids) r).isSome =
        (findProduto stc r).isSome) ∧
      (∀ q, consVal (removerItens L stc rids) oid q = consVal stc oid q) := by
  intro rids
  induction rids with
  | nil =>
    intro stc _ _ _ _
    refine ⟨rfl, ?_, rfl, rfl, rfl, rfl, fun r => rfl, fun q => rfl⟩
    show stc.itens = stc.itens.filter _
    symm
    rw [List.filter_eq_self]
    intro a _
    simp
  | cons rid rest ih =>
    intro stc hnodup hfind hsub hitnodup
    rw [List.nodup_cons] at hnodup
    obtain ⟨it, hit⟩ := Option.isSome_iff_exists.1 (hfind rid (by simp))
    obtain ⟨hitmem, hitoid⟩ := hsub rid (by simp) it hit
    have hitid : it.id = rid := by simpa using List.find?_some hit
    have hstep : removerItens L stc (rid :: rest) =
        removerItens L
          { ajustarEstoque stc it.produtoId (it.quantidade : Int) with
            itens := (ajustarEstoque stc it.produtoId (it.quantidade : Int)).itens.filter
              (fun i => !(i.id == rid)) } rest := by
      simp only [removerItens, hit]
    have hit2nodup : ((({ ajustarEstoque stc it.produtoId (it.quantidade : Int) with
        itens := (ajustarEstoque stc it.produtoId (it.quantidade : Int)).itens.filter
          (fun i => !(i.id == rid)) } : Store).itens.map (fun i => i.id)).Nodup) := by
      show ((stc.itens.filter (fun i => !(i.id == rid))).map (fun i => i.id)).Nodup
      exact hitnodup.sublist (List.Sublist.map _ (List.filter_sublist _))
    have hsub2 : ∀ rid' ∈ rest, ∀ it',
        L.find? (fun i => i.id == rid') = some it' →
        it' ∈ ({ ajustarEstoque stc it.produtoId (it.quantidade : Int) with
          itens := (ajustarEstoque stc it.produtoId (it.quantidade : Int)).itens.filter
            (fun i => !(i.id == rid)) } : Store).itens ∧ it'.pedidoId = oid := by
      intro rid' hr it' hit'
      obtain ⟨hmem', hoid'⟩ := hsub rid' (List.mem_cons_of_mem _ hr) it' hit'
      have hid' : it'.id = rid' := by simpa using List.find?_some hit'
      refine ⟨?_, hoid'⟩
      show it' ∈ stc.itens.filter (fun i => !(i.id == rid))
      rw [List.mem_filter]
      refine ⟨hmem', ?_⟩
      simp only [Bool.not_eq_eq_eq_not, Bool.not_true, beq_eq_false_iff_ne]
      rw [hid']
      intro hc
      exact hnodup.1 (hc ▸ hr)
    obtain ⟨ihp, ihi, ihped, ihcli, ihnp, ihni, ihfp, ihcv⟩ :=
      ih _ hnodup.2 (fun r hr => hfind r (List.mem_cons_of_mem _ hr)) hsub2 hit2nodup
    rw [hstep]
    refine ⟨?_, ?_, ?_, ?_, ?_, ?_, ?_, ?_⟩
    · rw [ihp]
      show (ajustarEstoque stc it.produtoId (it.quantidade : Int)).produtos.map _ = _
      exact produtoIds_ajustar _ _ _
    · rw [ihi]
      show (stc.itens.filter (fun i => !(i.id == rid))).filter _ = _
      rw [List.filter_filter]
      congr 1
      funext i
      simp only [List.contains_cons]
      rw [Bool.not_or, Bool.and_comm]
    · exact ihped
    · exact ihcli
    · exact ihnp
    · exact ihni
    · intro r
      rw [ihfp r]
      show (findProduto (ajustarEstoque stc it.produtoId (it.quantidade : Int)) r).isSome = _
      exact findProduto_isSome_ajustar _ _ _ _
    · intro q
      rw [ihcv q]
      -- one removal step conserves
      unfold consVal
      have hest : estoqueOf ({ ajustarEstoque stc it.produtoId (it.quantidade : Int) with
          itens := (ajustarEstoque stc it.produtoId (it.quantidade : Int)).itens.filter
            (fun i => !(i.id == rid)) } : Store) q =
          estoqueOf (ajustarEstoque stc it.produtoId (it.quantidade : Int)) q := rfl
      have hlq : lineQty ({ ajustarEstoque stc it.produtoId (it.quantidade : Int) with
          itens := (ajustarEstoque stc it.produtoId (it.quantidade : Int)).itens.filter
            (fun i => !(i.id == rid)) } : Store) oid q =
          lineQty stc oid q - itemQty oid q it := by
        rw [lineQty_eq, lineQty_eq]
        show ((stc.itens.filter (fun i => !(i.id == rid))).map (itemQty oid q)).sum = _
        rw [← hitid]
        exact sum_map_erase_by_id (itemQty oid q) stc.itens hitnodup it hitmem
      rw [hest, hlq, estoqueOf_ajustar]
      by_cases hq : q = it.produtoId
      · rw [if_pos hq]
        have hiq : itemQty oid q it = (it.quantidade : Int) := by
          unfold itemQty
          rw [if_pos (by simp [hitoid]), if_pos (by simp [hq])]
        rw [hiq]
        cases estoqueOf stc q with
        | none => rfl
        | some e =>
          simp only [Option.map_some']
          congr 1
          ring
      · rw [if_neg hq]
        have hiq : itemQty oid q it = 0 := by
          unfold itemQty
          rw [if_pos (by simp [hitoid]),
            if_neg (by simp; intro hc; exact hq hc.symm)]
        rw [hiq]
        cases estoqueOf stc q with
        | none => rfl
        | some e =>
          simp only [Option.map_some']
          congr 1
          ring

theorem matchOf_mem {L : List PedidoItem} {t : UpdateItem} {l : PedidoItem}
    (h : matchOf L t = some l) : l ∈ L := by
  unfold matchOf at h
  cases ht : t.id with
  | none => rw [ht] at h; simp at h
  | some n => rw [ht] at h; exact List.mem_of_find?_eq_some h

theorem matchOf_id {L : List PedidoItem} {t : UpdateItem} {l : PedidoItem}
    (h : matchOf L t = some l) : t.id = some l.id := by
  unfold matchOf at h
  cases ht : t.id with
  | none => rw [ht] at h; simp at h
  | some n =>
    rw [ht] at h
    have := List.find?_some h
    simp only [beq_iff_eq] at this
    rw [this]

theorem processarItem_step (L : List PedidoItem) (oid : Nat) (stc : Store)
    (t : UpdateItem) (stc' : Store)
    (h : processarItem L oid stc t = .ok stc')
    (hLoid : ∀ l ∈ L, l.pedidoId = oid)
    (hitnodup : (stc.itens.map (fun i => i.id)).Nodup)
    (hbound : ∀ i ∈ stc.itens, i.id < stc.nextItemId)
    (hmatch : ∀ l, matchOf L t = some l → l ∈ stc.itens)
    (hprodex : ∀ i ∈ stc.itens, (findProduto stc i.produtoId).isSome)
    (hpedb : ∀ i ∈ stc.itens, i.pedidoId < stc.nextPedidoId)
    (hoidb : oid < stc.nextPedidoId)
    (hpos : ∀ i ∈ stc.itens, 0 < i.id)
    (hposc : 0 < stc.nextItemId) :
    (∀ q, consVal stc' oid q = consVal stc oid q) ∧
    stc'.produtos.map (fun p => p.id) = stc.produtos.map (fun p => p.id) ∧
    stc'.pedidos = stc.pedidos ∧
    stc'.clientes = stc.clientes ∧
    stc'.nextPedidoId = stc.nextPedidoId ∧
    (stc'.itens.map (fun i => i.id)).Nodup ∧
    (∀ i ∈ stc'.itens, i.id < stc'.nextItemId) ∧
    stc.nextItemId ≤ stc'.nextItemId ∧
    (∀ r, (findProduto stc' r).isSome = (findProduto stc r).isSome) ∧
    (∀ j ∈ stc.itens, j ∈ stc'.itens ∨ ∃ l, matchOf L t = some l ∧ j.id = l.id) ∧
    (∀ i ∈ stc'.itens, (findProduto stc' i.produtoId).isSome) ∧
    (∀ i ∈ stc'.itens, i.pedidoId < stc'.nextPedidoId) ∧
    (∀ i ∈ stc'.itens, 0 < i.id) ∧
    0 < stc'.nextItemId := by
  cases hm : matchOf L t with
  | none =>
    cases hp : findProduto stc t.produtoId with
    | none => simp [processarItem, hm, hp] at h
    | some p =>
      by_cases hs : p.estoque < (t.quantidade : Int)
      · simp [processarItem, hm, hp, if_pos hs] at h
      · simp only [processarItem, hm, hp, if_neg hs, Except.ok.injEq] at h
        subst h
        have hfr : ∀ r, (findProduto (ajustarEstoque
            { stc with
              itens := stc.itens ++ [⟨stc.nextItemId, oid, t.produtoId, t.quantidade⟩],
              nextItemId := stc.nextItemId + 1 }
            t.produtoId (-(t.quantidade : Int))) r).isSome =
            (findProduto stc r).isSome := fun r =>
          findProduto_isSome_ajustar _ _ _ r
        refine ⟨?_, ?_, rfl, rfl, rfl, ?_, ?_, ?_, hfr, ?_, ?_, ?_, ?_, ?_⟩
        · intro q
          unfold consVal
          have hest : estoqueOf (ajustarEstoque
              { stc with
                itens := stc.itens ++ [⟨stc.nextItemId, oid, t.produtoId, t.quantidade⟩],
                nextItemId := stc.nextItemId + 1 }
              t.produtoId (-(t.quantidade : Int))) q =
              if q = t.produtoId then (estoqueOf stc q).map (fun e => e + -(t.quantidade : Int))
              else estoqueOf stc q := estoqueOf_ajustar _ _ _ _
          have hlq : lineQty (ajustarEstoque
              { stc with
                itens := stc.itens ++ [⟨stc.nextItemId, oid, t.produtoId, t.quantidade⟩],
                nextItemId := stc.nextItemId + 1 }
              t.produtoId (-(t.quantidade : Int))) oid q =
              lineQty stc oid q +
                itemQty oid q ⟨stc.nextItemId, oid, t.produtoId, t.quantidade⟩ := by
            rw [lineQty_eq, lineQty_eq]
            show ((stc.itens ++ [(⟨stc.nextItemId, oid, t.produtoId, t.quantidade⟩ :
              PedidoItem)]).map (itemQty oid q)).sum = _
            rw [List.map_append]
            simp
          rw [hest, hlq]
          by_cases hq : q = t.produtoId
          · rw [if_pos hq]
            have hiq : itemQty oid q ⟨stc.nextItemId, oid, t.produtoId, t.quantidade⟩ =
                (t.quantidade : Int) := by
              unfold itemQty
              rw [if_pos (by simp), if_pos (by simp [hq])]
            rw [hiq]
            cases estoqueOf stc q with
            | none => rfl
            | some e =>
              simp only [Option.map_some']
              congr 1
              ring
          · rw [if_neg hq]
            have hiq : itemQty oid q ⟨stc.nextItemId, oid, t.produtoId, t.quantidade⟩ = 0 := by
              unfold itemQty
              rw [if_pos (by simp), if_neg (by simp; intro hc; exact hq hc.symm)]
            rw [hiq]
            simp
        · show (ajustarEstoque _ _ _).produtos.map _ = _
          exact produtoIds_ajustar _ _ _
        · show ((stc.itens ++ [(⟨stc.nextItemId, oid, t.produtoId, t.quantidade⟩ :
            PedidoItem)]).map (fun i => i.id)).Nodup
          rw [List.map_append]
          refine List.Nodup.append hitnodup (by simp) ?_
          rw [List.disjoint_right]
          intro a ha
          simp only [List.map_cons, List.map_nil, List.mem_singleton] at ha
          subst ha
          intro hc
          obtain ⟨j, hj, hjid⟩ := List.mem_map.1 hc
          exact absurd hjid (Nat.ne_of_lt (hbound j hj))
        · intro i hi
          show i.id < stc.nextItemId + 1
          rcases List.mem_append.1 hi with hold | hnew
          · exact Nat.lt_succ_of_lt (hbound i hold)
          · simp only [List.mem_singleton] at hnew
            subst hnew
            exact Nat.lt_succ_self _
        · exact Nat.le_succ _
        · intro j hj
          left
          exact List.mem_append_left _ hj
        · intro i hi
          rw [hfr]
          rcases List.mem_append.1 hi with hold | hnew
          · exact hprodex i hold
          · simp only [List.mem_singleton] at hnew
            subst hnew
            simp [hp]
        · intro i hi
          show i.pedidoId < stc.nextPedidoId
          rcases List.mem_append.1 hi with hold | hnew
          · exact hpedb i hold
          · simp only [List.mem_singleton] at hnew
            subst hnew
            exact hoidb
        · intro i hi
          rcases List.mem_append.1 hi with hold | hnew
          · exact hpos i hold
          · simp only [List.mem_singleton] at hnew
            subst hnew
            exact hposc
        · exact Nat.succ_pos _
  | some l =>
    have hlmem : l ∈ stc.itens := hmatch l hm
    have hlL : l ∈ L := matchOf_mem hm
    have hloid : l.pedidoId = oid := hLoid l hlL
    cases hp : findProduto stc l.produtoId with
    | none => simp [processarItem, hm, hp] at h
    | some p =>
      simp only [processarItem, hm, hp] at h
      by_cases hs : ((t.quantidade : Int) - (l.quantidade : Int) > 0 ∧
          p.estoque < (t.quantidade : Int) - (l.quantidade : Int))
      · rw [if_pos hs] at h
        exact absurd h (by simp)
      · rw [if_neg hs] at h
        simp only [Except.ok.injEq] at h
        subst h
        have hids : (stc.itens.map (fun i =>
            if i.id == l.id then { i with quantidade := t.quantidade } else i)).map
              (fun i => i.id) = stc.itens.map (fun i => i.id) := by
          rw [List.map_map]
          apply List.map_congr_left
          intro i _
          by_cases hc : (i.id == l.id) = true <;> simp [hc, Function.comp]
        have hfr : ∀ r, (findProduto (ajustarEstoque
            { stc with
              itens := stc.itens.map (fun i =>
                if i.id == l.id then { i with quantidade := t.quantidade } else i) }
            l.produtoId (-((t.quantidade : Int) - (l.quantidade : Int)))) r).isSome =
            (findProduto stc r).isSome := fun r => findProduto_isSome_ajustar _ _ _ r
        refine ⟨?_, ?_, rfl, rfl, rfl, ?_, ?_, ?_, hfr, ?_, ?_, ?_, ?_, ?_⟩
        · intro q
          unfold consVal
          have hest : estoqueOf (ajustarEstoque
              { stc with
                itens := stc.itens.map (fun i =>
                  if i.id == l.id then { i with quantidade := t.quantidade } else i) }
              l.produtoId (-((t.quantidade : Int) - (l.quantidade : Int)))) q =
              if q = l.produtoId then
                (estoqueOf stc q).map
                  (fun e => e + -((t.quantidade : Int) - (l.quantidade : Int)))
              else estoqueOf stc q := estoqueOf_ajustar _ _ _ _
          have hlq : lineQty (ajustarEstoque
              { stc with
                itens := stc.itens.map (fun i =>
                  if i.id == l.id then { i with quantidade := t.quantidade } else i) }
              l.produtoId (-((t.quantidade : Int) - (l.quantidade : Int)))) oid q =
              lineQty stc oid q - itemQty oid q l +
                itemQty oid q { l with quantidade := t.quantidade } := by
            rw [lineQty_eq, lineQty_eq]
            exact sum_map_modify_by_id (itemQty oid q)
              (fun i => { i with quantidade := t.quantidade }) (fun i => rfl)
              stc.itens hitnodup l hlmem
          rw [hest, hlq]
          by_cases hq : q = l.produtoId
          · rw [if_pos hq]
            have hiq1 : itemQty oid q l = (l.quantidade : Int) := by
              unfold itemQty
              rw [if_pos (by simp [hloid]), if_pos (by simp [hq])]
            have hiq2 : itemQty oid q { l with quantidade := t.quantidade } =
                (t.quantidade : Int) := by
              unfold itemQty
              rw [if_pos (by simp [hloid]), if_pos (by simp [hq])]
            rw [hiq1, hiq2]
            cases estoqueOf stc q with
            | none => rfl
            | some e =>
              simp only [Option.map_some']
              congr 1
              ring
          · rw [if_neg hq]
            have hiq1 : itemQty oid q l = 0 := by
              unfold itemQty
              rw [if_pos (by simp [hloid]), if_neg (by simp; intro hc; exact hq hc.symm)]
            have hiq2 : itemQty oid q { l with quantidade := t.quantidade } = 0 := by
              unfold itemQty
              rw [if_pos (by simp [hloid]), if_neg (by simp; intro hc; exact hq hc.symm)]
            rw [hiq1, hiq2]
            simp
        · show (ajustarEstoque _ _ _).produtos.map _ = _
          exact produtoIds_ajustar _ _ _
        · show ((stc.itens.map (fun i =>
            if i.id == l.id then { i with quantidade := t.quantidade } else i)).map
              (fun i => i.id)).Nodup
          rw [hids]
          exact hitnodup
        · intro i hi
          show i.id < stc.nextItemId
          obtain ⟨j, hj, rfl⟩ := List.mem_map.1 hi
          by_cases hc : (j.id == l.id) = true <;> simp only [hc, if_true, if_false]
          · have : ({ j with quantidade := t.quantidade } : PedidoItem).id = j.id := rfl
            rw [this]
            exact hbound j hj
          · simp only [Bool.false_eq_true, if_false]
            exact hbound j hj
        · exact Nat.le_refl _
        · intro j hj
          by_cases hc : j.id = l.id
          · right
            exact ⟨l, rfl, hc⟩
          · left
            have hjj : (fun i : PedidoItem => if i.id == l.id then
                { i with quantidade := t.quantidade } else i) j = j := by
              simp only [if_neg (show ¬(j.id == l.id) = true by simp [hc])]
            rw [← hjj]
            exact List.mem_map_of_mem _ hj
        · intro i hi
          rw [hfr]
          obtain ⟨j, hj, rfl⟩ := List.mem_map.1 hi
          by_cases hc : (j.id == l.id) = true
          · simp only [hc, if_true]
            have : ({ j with quantidade := t.quantidade } : PedidoItem).produtoId =
                j.produtoId := rfl
            rw [this]
            exact hprodex j hj
          · simp only [hc, Bool.false_eq_true, if_false]
            exact hprodex j hj
        · intro i hi
          show i.pedidoId < stc.nextPedidoId
          obtain ⟨j, hj, rfl⟩ := List.mem_map.1 hi
          by_cases hc : (j.id == l.id) = true
          · simp only [hc, if_true]
            exact hpedb j hj
          · simp only [hc, Bool.false_eq_true, if_false]
            exact hpedb j hj
        · intro i hi
          obtain ⟨j, hj, rfl⟩ := List.mem_map.1 hi
          by_cases hc : (j.id == l.id) = true
          · simp only [hc, if_true]
            exact hpos j hj
          · simp only [hc, Bool.false_eq_true, if_false]
            exact hpos j hj
        · exact hposc

theorem processarItens_effects (L : List PedidoItem) (oid : Nat) :
    ∀ (ts : List UpdateItem) (stc st3 : Store),
      processarItens L oid stc ts = .ok st3 →
      (sentIds ts).Nodup →
      (∀ l ∈ L, l.pedidoId = oid) →
      (∀ l ∈ L, 0 < l.id) →
      (∀ t ∈ ts, ∀ l, matchOf L t = some l → l ∈ stc.itens) →
      (stc.itens.map (fun i => i.id)).Nodup →
      (∀ i ∈ stc.itens, i.id < stc.nextItemId) →
      (∀ i ∈ stc.itens, (findProduto stc i.produtoId).isSome) →
      (∀ i ∈ stc.itens, i.pedidoId < stc.nextPedidoId) →
      oid < stc.nextPedidoId →
      (∀ i ∈ stc.itens, 0 < i.id) →
      0 < stc.nextItemId →
      (∀ q, consVal st3 oid q = consVal stc oid q) ∧
      st3.produtos.map (fun p => p.id) = stc.produtos.map (fun p => p.id) ∧
      st3.pedidos = stc.pedidos ∧
      st3.clientes = stc.clientes ∧
      st3.nextPedidoId = stc.nextPedidoId ∧
      (st3.itens.map (fun i => i.id)).Nodup ∧
      (∀ i ∈ st3.itens, i.id < st3.nextItemId) ∧
      (∀ r, (findProduto st3 r).isSome = (findProduto stc r).isSome) ∧
      (∀ i ∈ st3.itens, (findProduto st3 i.produtoId).isSome) ∧
      (∀ i ∈ st3.itens, i.pedidoId < st3.nextPedidoId) ∧
      (∀ i ∈ st3.itens, 0 < i.id) ∧
      0 < st3.nextItemId := by
  intro ts
  induction ts with
  | nil =>
    intro stc st3 h _ _ _ _ hnd hbd hpe hpb hob hps hpc
    have : stc = st3 := by simpa [processarItens] using h
    subst this
    exact ⟨fun q => rfl, rfl, rfl, rfl, rfl, hnd, hbd, fun r => rfl, hpe, hpb, hps, hpc⟩
  | cons t rest ih =>
    intro stc st3 h hsent hLoid hL0 hmatchAll hnd hbd hpe hpb hob hps hpc
    cases hstep : processarItem L oid stc t with
    | error e => simp [processarItens, hstep] at h
    | ok stc' =>
      have h' : processarItens L oid stc' rest = .ok st3 := by
        simpa [processarItens, hstep] using h
      obtain ⟨s1, s2, s3, s4, s5, s6, s7, s8, s9, s10, s11, s12, s13, s14⟩ :=
        processarItem_step L oid stc t stc' hstep hLoid hnd hbd
          (fun l hl => hmatchAll t (by simp) l hl) hpe hpb hob hps hpc
      have hsent' : (sentIds rest).Nodup := by
        unfold sentIds at hsent ⊢
        rw [List.filterMap_cons] at hsent
        cases htt : itemTruthyId t with
        | none => rwa [htt] at hsent
        | some n => rw [htt] at hsent; exact (List.nodup_cons.1 hsent).2
      have hmatch' : ∀ t' ∈ rest, ∀ l', matchOf L t' = some l' → l' ∈ stc'.itens := by
        intro t' ht' l' hml'
        have hl'mem : l' ∈ stc.itens :=
          hmatchAll t' (List.mem_cons_of_mem _ ht') l' hml'
        rcases s10 l' hl'mem with hin | ⟨l0, hm0, hideq⟩
        · exact hin
        · exfalso
          have hl'L : l' ∈ L := matchOf_mem hml'
          have hl0pos : 0 < l0.id := by
            rw [← hideq]
            exact hL0 l' hl'L
          have htid : itemTruthyId t = some l0.id := by
            unfold itemTruthyId
            rw [matchOf_id hm0]
            simp [Nat.pos_iff_ne_zero.1 hl0pos]
          have htid' : itemTruthyId t' = some l0.id := by
            unfold itemTruthyId
            rw [matchOf_id hml', hideq]
            simp [Nat.pos_iff_ne_zero.1 hl0pos]
          unfold sentIds at hsent
          rw [List.filterMap_cons, htid] at hsent
          have hmem : l0.id ∈ rest.filterMap itemTruthyId :=
            List.mem_filterMap.2 ⟨t', ht', htid'⟩
          exact (List.nodup_cons.1 hsent).1 hmem
      have hob' : oid < stc'.nextPedidoId := by rw [s5]; exact hob
      obtain ⟨i1, i2, i3, i4, i5, i6, i7, i8, i9, i10, i11, i12⟩ :=
        ih stc' st3 h' hsent' hLoid hL0 hmatch' s6 s7 s11 s12 hob' s13 s14
      refine ⟨?_, ?_, ?_, ?_, ?_, i6, i7, ?_, i9, i10, i11, i12⟩
      · intro q
        rw [i1 q, s1 q]
      · rw [i2, s2]
      · rw [i3, s3]
      · rw [i4, s4]
      · rw [i5, s5]
      · intro r
        rw [i8 r, s9 r]

theorem wf_setStatus (st : Store) (oid : Nat) (s : Status) (h : Wf st) :
    Wf (setStatus st oid s) := by
  obtain ⟨w1, w2, w3, w4, w5, w6, w7, w8⟩ := h
  refine ⟨w1, w2, ?_, w4, w5, w6, w7, w8⟩
  intro p hp
  unfold setStatus at hp
  simp only [List.mem_map] at hp
  obtain ⟨p0, hp0, rfl⟩ := hp
  show (if (p0.id == oid) = true then { p0 with status := s } else p0).id < st.nextPedidoId
  by_cases hc : (p0.id == oid) = true
  · simp only [hc, if_true]
    exact w3 p0 hp0
  · simp only [hc, Bool.false_eq_true, if_false]
    exact w3 p0 hp0

theorem wf_setTotal (st : Store) (oid : Nat) (t : Rat) (h : Wf st) :
    Wf (setTotal st oid t) := by
  obtain ⟨w1, w2, w3, w4, w5, w6, w7, w8⟩ := h
  refine ⟨w1, w2, ?_, w4, w5, w6, w7, w8⟩
  intro p hp
  unfold setTotal at hp
  simp only [List.mem_map] at hp
  obtain ⟨p0, hp0, rfl⟩ := hp
  show (if (p0.id == oid) = true then { p0 with total := t } else p0).id < st.nextPedidoId
  by_cases hc : (p0.id == oid) = true
  · simp only [hc, if_true]
    exact w3 p0 hp0
  · simp only [hc, Bool.false_eq_true, if_false]
    exact w3 p0 hp0

theorem update_conserves (st : Store) (oid : Nat) (d : UpdateData) (st' : Store)
    (hwf : Wf st)
    (hsent : ∀ ts, d.items = some ts → (sentIds ts).Nodup)
    (h : PedidoService.update st oid d = .ok st') :
    (∀ q, consVal st' oid q = consVal st oid q) ∧ Wf st' ∧
    st'.nextPedidoId = st.nextPedidoId := by
  obtain ⟨w1, w2, w3, w4, w5, w6, w7, w8⟩ := hwf
  cases hp : findPedido st oid with
  | none => simp [PedidoService.update, hp] at h
  | some ped =>
    have hob : oid < st.nextPedidoId := by
      have := findPedido_eq_some_id hp
      rw [← this]
      exact w3 ped (findPedido_mem hp)
    by_cases hpar : parseUpdate d
    · simp only [PedidoService.update, hp, if_pos hpar] at h
      -- the status step
      have hwf1 : Wf (match d.status with
          | some s => setStatus st oid s
          | none => st) := by
        cases d.status with
        | none => exact ⟨w1, w2, w3, w4, w5, w6, w7, w8⟩
        | some s => exact wf_setStatus st oid s ⟨w1, w2, w3, w4, w5, w6, w7, w8⟩
      have h1prod : (match d.status with
          | some s => setStatus st oid s
          | none => st).produtos = st.produtos := by
        cases d.status <;> rfl
      have h1itens : (match d.status with
          | some s => setStatus st oid s
          | none => st).itens = st.itens := by
        cases d.status <;> rfl
      have h1np : (match d.status with
          | some s => setStatus st oid s
          | none => st).nextPedidoId = st.nextPedidoId := by
        cases d.status <;> rfl
      have h1ni : (match d.status with
          | some s => setStatus st oid s
          | none => st).nextItemId = st.nextItemId := by
        cases d.status <;> rfl
      have h1cons : ∀ q, consVal (match d.status with
          | some s => setStatus st oid s
          | none => st) oid q = consVal st oid q := by
        cases d.status <;> exact fun q => rfl
      cases hdi : d.items with
      | none =>
        rw [hdi] at h
        simp only [Except.ok.injEq] at h
        subst h
        exact ⟨h1cons, hwf1, h1np⟩
      | some ts =>
        rw [hdi] at h
        obtain ⟨st3, hproc, rfl⟩ := except_map_ok h
        -- names for the snapshot and the removal ids
        have hLsub : ∀ l ∈ itensOf st oid, l ∈ st.itens :=
          fun l hl => (List.mem_filter.1 hl).1
        have hLoid : ∀ l ∈ itensOf st oid, l.pedidoId = oid := by
          intro l hl
          have := (List.mem_filter.1 hl).2
          simpa using this
        have hL0 : ∀ l ∈ itensOf st oid, 0 < l.id := fun l hl => w7 l (hLsub l hl)
        have hLnodup : ((itensOf st oid).map (fun i => i.id)).Nodup :=
          w2.sublist (List.Sublist.map _ (List.filter_sublist _))
        have hremnodup : ((((itensOf st oid).map (fun i => i.id)).filter
            (fun x => !((ts.filterMap itemTruthyId).contains x))).Nodup) :=
          hLnodup.filter _
        have hremfind : ∀ rid ∈ ((itensOf st oid).map (fun i => i.id)).filter
            (fun x => !((ts.filterMap itemTruthyId).contains x)),
            ((itensOf st oid).find? (fun i => i.id == rid)).isSome := by
          intro rid hr
          have hr' : rid ∈ (itensOf st oid).map (fun i => i.id) :=
            List.mem_of_mem_filter hr
          obtain ⟨l, hl, hlid⟩ := List.mem_map.1 hr'
          exact List.find?_isSome.2 ⟨l, hl, by simp [hlid]⟩
        have hremsub : ∀ rid ∈ ((itensOf st oid).map (fun i => i.id)).filter
            (fun x => !((ts.filterMap itemTruthyId).contains x)),
            ∀ it, (itensOf st oid).find? (fun i => i.id == rid) = some it →
            it ∈ (match d.status with
              | some s => setStatus st oid s
              | none => st).itens ∧ it.pedidoId = oid := by
          intro rid hr it hit
          have hmem := List.mem_of_find?_eq_some hit
          rw [h1itens]
          exact ⟨hLsub it hmem, hLoid it hmem⟩
        have h1itnodup : (((match d.status with
            | some s => setStatus st oid s
            | none => st) : Store).itens.map (fun i => i.id)).Nodup := by
          rw [h1itens]
          exact w2
        obtain ⟨r1, r2, r3, r4, r5, r6, r7, r8⟩ :=
          removerItens_effects (itensOf st oid) oid
            (((itensOf st oid).map (fun i => i.id)).filter
              (fun x => !((ts.filterMap itemTruthyId).contains x)))
            (match d.status with
              | some s => setStatus st oid s
              | none => st)
            hremnodup hremfind hremsub h1itnodup
        -- facts about the store after removal
        set st2 := removerItens (itensOf st oid)
          (match d.status with
            | some s => setStatus st oid s
            | none => st)
          (((itensOf st oid).map (fun i => i.id)).filter
            (fun x => !((ts.filterMap itemTruthyId).contains x))) with hst2
        have hst2sub : ∀ i ∈ st2.itens, i ∈ st.itens := by
          intro i hi
          rw [r2, h1itens] at hi
          exact List.mem_of_mem_filter hi
        have hmatch2 : ∀ t ∈ ts, ∀ l, matchOf (itensOf st oid) t = some l →
            l ∈ st2.itens := by
          intro t ht l hml
          have hlL := matchOf_mem hml
          have hlid0 : 0 < l.id := hL0 l hlL
          have htid : itemTruthyId t = some l.id := by
            unfold itemTruthyId
            rw [matchOf_id hml]
            simp [Nat.pos_iff_ne_zero.1 hlid0]
          have hsentmem : l.id ∈ ts.filterMap itemTruthyId :=
            List.mem_filterMap.2 ⟨t, ht, htid⟩
          have hnotrem : l.id ∉ ((itensOf st oid).map (fun i => i.id)).filter
              (fun x => !((ts.filterMap itemTruthyId).contains x)) := by
            intro hmem
            have hfl := (List.mem_filter.1 hmem).2
            rw [Bool.not_eq_eq_eq_not, Bool.not_true] at hfl
            have hT : (ts.filterMap itemTruthyId).contains l.id = true :=
              List.elem_iff.2 hsentmem
            rw [hT] at hfl
            simp at hfl
          rw [r2, h1itens]
          rw [List.mem_filter]
          refine ⟨hLsub l hlL, ?_⟩
          cases hcc : (((itensOf st oid).map (fun i => i.id)).filter
              (fun x => !((ts.filterMap itemTruthyId).contains x))).contains l.id with
          | false => rfl
          | true => exact absurd (List.elem_iff.1 hcc) hnotrem
        have h2nodup : (st2.itens.map (fun i => i.id)).Nodup := by
          rw [r2]
          exact h1itnodup.sublist (List.Sublist.map _ (List.filter_sublist _))
        have h2bound : ∀ i ∈ st2.itens, i.id < st2.nextItemId := by
          intro i hi
          rw [r6, h1ni]
          exact w4 i (hst2sub i hi)
        have hfind1 : ∀ r, findProduto (match d.status with
            | some s => setStatus st oid s
            | none => st) r = findProduto st r := by
          intro r
          unfold findProduto
          rw [h1prod]
        have h2pe : ∀ i ∈ st2.itens, (findProduto st2 i.produtoId).isSome := by
          intro i hi
          rw [r7, hfind1]
          exact w6 i (hst2sub i hi)
        have h2pb : ∀ i ∈ st2.itens, i.pedidoId < st2.nextPedidoId := by
          intro i hi
          rw [r5, h1np]
          exact w5 i (hst2sub i hi)
        have h2ob : oid < st2.nextPedidoId := by
          rw [r5, h1np]
          exact hob
        have h2pos : ∀ i ∈ st2.itens, 0 < i.id := fun i hi => w7 i (hst2sub i hi)
        have h2pc : 0 < st2.nextItemId := by
          rw [r6, h1ni]
          exact w8
        obtain ⟨p1, p2, p3, p4, p5, p6, p7, p8, p9, p10, p11, p12⟩ :=
          processarItens_effects (itensOf st oid) oid ts st2 st3 hproc
            (hsent ts hdi) hLoid hL0 hmatch2 h2nodup h2bound h2pe h2pb h2ob h2pos h2pc
        refine ⟨?_, ?_, ?_⟩
        · intro q
          have hc0 : consVal (setTotal st3 oid (computeTotal st3 oid)) oid q =
              consVal st3 oid q := rfl
          rw [hc0, p1 q, r8 q, h1cons q]
        · apply wf_setTotal
          refine ⟨?_, p6, ?_, p7, p10, p9, p11, p12⟩
          · rw [p2, r1, h1prod]
            exact w1
          · intro p hp'
            rw [p3, r3] at hp'
            rw [p5, r5, h1np]
            obtain ⟨x1, x2, x3, x4, x5, x6, x7, x8⟩ := hwf1
            have hb := x3 p hp'
            rwa [h1np] at hb
        · show st3.nextPedidoId = st.nextPedidoId
          rw [p5, r5, h1np]
    · simp [PedidoService.update, hp, hpar] at h

theorem estoqueOf_foldl_inc (q : Nat) :
    ∀ (L : List PedidoItem) (st : Store),
      estoqueOf (L.foldl
        (fun acc it => ajustarEstoque acc it.produtoId (it.quantidade : Int)) st) q =
        (estoqueOf st q).map (fun e => e +
          ((L.map (fun i => if i.produtoId == q then (i.quantidade : Int) else 0)).sum)) := by
  intro L
  induction L with
  | nil =>
    intro st
    cases h : estoqueOf st q <;> simp [h]
  | cons it rest ih =>
    intro st
    rw [List.foldl_cons, ih, estoqueOf_ajustar]
    by_cases hq : q = it.produtoId
    · rw [if_pos hq]
      have hbq : (it.produtoId == q) = true := by
        rw [beq_iff_eq]
        exact hq.symm
      cases h : estoqueOf st q with
      | none => rfl
      | some e =>
        simp only [Option.map_some', List.map_cons, List.sum_cons, hbq, if_true]
        congr 1
        ring
    · rw [if_neg hq]
      have hbq : (it.produtoId == q) = false := by
        rw [beq_eq_false_iff_ne]
        exact fun hc => hq hc.symm
      cases h : estoqueOf st q with
      | none => rfl
      | some e =>
        simp only [Option.map_some', List.map_cons, List.sum_cons, hbq,
          Bool.false_eq_true, if_false, zero_add]

theorem delete_restores (st : Store) (oid : Nat) (st' : Store)
    (h : PedidoService.delete st oid = .ok st') :
    (∀ q, estoqueOf st' q = consVal st oid q) ∧
    findPedido st' oid = none ∧
    itensOf st' oid = [] := by
  cases hp : findPedido st oid with
  | none => simp [PedidoService.delete, hp] at h
  | some ped =>
    by_cases hst : (ped.status != Status.PENDENTE) = true
    · simp [PedidoService.delete, hp, hst] at h
    · rw [Bool.not_eq_true] at hst
      simp only [PedidoService.delete, hp, hst, Bool.false_eq_true, if_false,
        Except.ok.injEq] at h
      subst h
      refine ⟨?_, ?_, ?_⟩
      · intro q
        show estoqueOf ((itensOf st oid).foldl
          (fun acc it => ajustarEstoque acc it.produtoId (it.quantidade : Int)) st) q = _
        rw [estoqueOf_foldl_inc]
        rfl
      · unfold findPedido
        rw [List.find?_eq_none]
        intro p hp'
        have := (List.mem_filter.1 hp').2
        simp only [Bool.not_eq_eq_eq_not, Bool.not_true] at this
        simp [this]
      · unfold itensOf
        show (((itensOf st oid).foldl
          (fun acc it => ajustarEstoque acc it.produtoId (it.quantidade : Int)) st).itens.filter
            (fun i => !(i.pedidoId == oid))).filter (fun i => i.pedidoId == oid) = []
        rw [List.filter_filter, List.filter_eq_nil_iff]
        intro i _
        by_cases hc : (i.pedidoId == oid) = true <;> simp [hc]

theorem criarItens_wf_inv (oid : Nat) (N : Nat) :
    ∀ (its : List CreateItem) (st : Store),
      (st.itens.map (fun i => i.id)).Nodup →
      (∀ i ∈ st.itens, i.id < st.nextItemId) →
      (∀ i ∈ st.itens, 0 < i.id) →
      0 < st.nextItemId →
      (∀ it ∈ its, (findProduto st it.produtoId).isSome) →
      (∀ i ∈ st.itens, (findProduto st i.produtoId).isSome) →
      (∀ i ∈ st.itens, i.pedidoId < N) →
      oid < N →
      ((criarItens oid st its).itens.map (fun i => i.id)).Nodup ∧
      (∀ i ∈ (criarItens oid st its).itens, i.id < (criarItens oid st its).nextItemId) ∧
      (∀ i ∈ (criarItens oid st its).itens, 0 < i.id) ∧
      0 < (criarItens oid st its).nextItemId ∧
      (∀ i ∈ (criarItens oid st its).itens,
        (findProduto (criarItens oid st its) i.produtoId).isSome) ∧
      (∀ i ∈ (criarItens oid st its).itens, i.pedidoId < N) := by
  intro its
  induction its with
  | nil =>
    intro st h1 h2 h3 h4 _ h6 h7 _
    exact ⟨h1, h2, h3, h4, h6, h7⟩
  | cons it rest ih =>
    intro st h1 h2 h3 h4 h5 h6 h7 h8
    show ((criarItens oid (ajustarEstoque
      { st with
        itens := st.itens ++ [⟨st.nextItemId, oid, it.produtoId, it.quantidade⟩],
        nextItemId := st.nextItemId + 1 }
      it.produtoId (-(it.quantidade : Int))) rest).itens.map (fun i => i.id)).Nodup ∧ _
    set stb := ajustarEstoque
      { st with
        itens := st.itens ++ [⟨st.nextItemId, oid, it.produtoId, it.quantidade⟩],
        nextItemId := st.nextItemId + 1 }
      it.produtoId (-(it.quantidade : Int)) with hstb
    have hbitens : stb.itens = st.itens ++ [⟨st.nextItemId, oid, it.produtoId, it.quantidade⟩] := rfl
    have hbni : stb.nextItemId = st.nextItemId + 1 := rfl
    have hbfp : ∀ r, (findProduto stb r).isSome = (findProduto st r).isSome := by
      intro r
      rw [hstb]
      exact findProduto_isSome_ajustar _ _ _ _
    apply ih stb
    · rw [hbitens, List.map_append]
      refine List.Nodup.append h1 (by simp) ?_
      rw [List.disjoint_right]
      intro a ha
      simp only [List.map_cons, List.map_nil, List.mem_singleton] at ha
      subst ha
      intro hc
      obtain ⟨j, hj, hjid⟩ := List.mem_map.1 hc
      exact absurd hjid (Nat.ne_of_lt (h2 j hj))
    · intro i hi
      rw [hbni]
      rw [hbitens] at hi
      rcases List.mem_append.1 hi with hold | hnew
      · exact Nat.lt_succ_of_lt (h2 i hold)
      · simp only [List.mem_singleton] at hnew
        subst hnew
        exact Nat.lt_succ_self _
    · intro i hi
      rw [hbitens] at hi
      rcases List.mem_append.1 hi with hold | hnew
      · exact h3 i hold
      · simp only [List.mem_singleton] at hnew
        subst hnew
        exact h4
    · rw [hbni]
      exact Nat.succ_pos _
    · intro x hx
      rw [hbfp]
      exact h5 x (List.mem_cons_of_mem _ hx)
    · intro i hi
      rw [hbfp]
      rw [hbitens] at hi
      rcases List.mem_append.1 hi with hold | hnew
      · exact h6 i hold
      · simp only [List.mem_singleton] at hnew
        subst hnew
        exact h5 it (by simp)
    · intro i hi
      rw [hbitens] at hi
      rcases List.mem_append.1 hi with hold | hnew
      · exact h7 i hold
      · simp only [List.mem_singleton] at hnew
        subst hnew
        exact h8
    · exact h8

theorem criarItens_nextPedidoId (oid : Nat) :
    ∀ (its : List CreateItem) (st : Store),
      (criarItens oid st its).nextPedidoId = st.nextPedidoId := by
  intro its
  induction its with
  | nil => intro st; rfl
  | cons it rest ih => intro st; exact ih _

theorem create_establishes (st : Store) (cid : Nat) (items : List CreateItem)
    (st' : Store) (oid : Nat) (hwf : Wf st)
    (h : PedidoService.create st cid items = .ok (st', oid)) :
    (∀ q, consVal st' oid q = estoqueOf st q) ∧ Wf st' := by
  obtain ⟨w1, w2, w3, w4, w5, w6, w7, w8⟩ := hwf
  cases hc : findCliente st cid with
  | none => simp [PedidoService.create, hc] at h
  | some c =>
    cases hv : validarEstoque st items with
    | error e => simp [PedidoService.create, hc, hv] at h
    | ok u =>
      simp only [PedidoService.create, hc, hv, Except.ok.injEq, Prod.mk.injEq] at h
      obtain ⟨h1, h2⟩ := h
      subst h1
      subst h2
      set nid := st.nextPedidoId with hnid
      set st1 : Store :=
        { st with
          pedidos := st.pedidos ++ [⟨nid, cid, Status.PENDENTE, 0⟩],
          nextPedidoId := nid + 1 } with hst1
      set st2 := criarItens nid st1 items with hst2
      have hempty : itensOf st1 nid = [] := by
        unfold itensOf
        rw [List.filter_eq_nil_iff]
        intro i hi
        have := w5 i hi
        simp only [beq_iff_eq]
        exact Nat.ne_of_lt this
      have hlq : ∀ q, lineQty st2 nid q = reqQty items q := by
        intro q
        have hproj := itensOf_criarItens_proj nid items st1
        rw [hempty] at hproj
        simp only [List.map_nil, List.nil_append] at hproj
        unfold lineQty
        have hmm : (itensOf st2 nid).map
            (fun i => if i.produtoId == q then (i.quantidade : Int) else 0) =
            ((itensOf st2 nid).map (fun i => (i.produtoId, i.quantidade))).map
              (fun pr => if pr.1 == q then (pr.2 : Int) else 0) := by
          rw [List.map_map]
          rfl
        rw [hmm, hproj, List.map_map]
        rfl
      refine ⟨?_, ?_⟩
      · intro q
        have hcv : consVal (setTotal st2 nid (computeTotal st2 nid)) nid q =
            (estoqueOf st2 q).map (fun e => e + lineQty st2 nid q) := rfl
        rw [hcv, hlq q]
        have hest : estoqueOf st2 q = (estoqueOf st1 q).map
            (fun e => e - reqQty items q) := estoqueOf_criarItens nid q items st1
        rw [hest]
        have hest1 : estoqueOf st1 q = estoqueOf st q := rfl
        rw [hest1]
        cases estoqueOf st q with
        | none => rfl
        | some e =>
          simp only [Option.map_some']
          congr 1
          ring
      · apply wf_setTotal
        have hex : ∀ it ∈ items, (findProduto st1 it.produtoId).isSome :=
          validarEstoque_ok_products st items hv
        obtain ⟨i1, i2, i3, i4, i5, i6⟩ :=
          criarItens_wf_inv nid (nid + 1) items st1 w2 w4 w7 w8 hex w6
            (fun i hi => Nat.lt_succ_of_lt (w5 i hi)) (Nat.lt_succ_self _)
        refine ⟨?_, i1, ?_, i2, ?_, i5, i3, i4⟩
        · rw [hst2, criarItens_produtoIds]
          exact w1
        · intro p hp
          rw [hst2, criarItens_pedidos, hst1] at hp
          rw [hst2, criarItens_nextPedidoId, hst1]
          show p.id < nid + 1
          rcases List.mem_append.1 hp with hold | hnew
          · exact Nat.lt_succ_of_lt (w3 p hold)
          · simp only [List.mem_singleton] at hnew
            subst hnew
            exact Nat.lt_succ_self _
        · intro i hi
          rw [hst2, criarItens_nextPedidoId, hst1]
          exact i6 i hi


theorem updates_conserve (oid : Nat) :
    ∀ (ds : List UpdateData) (st st2 : Store),
      Wf st →
      (∀ d ∈ ds, ∀ ts, d.items = some ts → (sentIds ts).Nodup) →
      runUpdates oid st ds = .ok st2 →
      (∀ q, consVal st2 oid q = consVal st oid q) ∧ Wf st2 := by
  intro ds
  induction ds with
  | nil =>
    intro st st2 hwf _ h
    have : st = st2 := by simpa [runUpdates] using h
    subst this
    exact ⟨fun q => rfl, hwf⟩
  | cons d ds ih =>
    intro st st2 hwf hds h
    cases hstep : PedidoService.update st oid d with
    | error e => simp [runUpdates, hstep] at h
    | ok stm =>
      have h' : runUpdates oid stm ds = .ok st2 := by
        simpa [runUpdates, hstep] using h
      obtain ⟨c1, c2, c3⟩ :=
        update_conserves st oid d stm hwf (hds d (by simp)) hstep
      obtain ⟨d1, d2⟩ := ih stm st2 c2
        (fun x hx => hds x (List.mem_cons_of_mem _ hx)) h'
      exact ⟨fun q => by rw [d1 q, c1 q], d2⟩

/-- C8: starting from any well-formed store, a successful create of an
order, followed by any number of successful update calls on it (each
sending no duplicate line ids), followed by a successful delete (which
the service only allows while the order is still `PENDENTE`), restores
every product's stock to its pre-order value and removes the order and
all of its lines. -/
theorem create_update_delete_restores_stock (st : Store) (cid : Nat)
    (items : List CreateItem) (ds : List UpdateData)
    (st1 st2 st3 : Store) (oid : Nat)
    (hwf : Wf st)
    (hds : ∀ d ∈ ds, ∀ ts, d.items = some ts → (sentIds ts).Nodup)
    (hc : PedidoService.create st cid items = .ok (st1, oid))
    (hu : runUpdates oid st1 ds = .ok st2)
    (hd : PedidoService.delete st2 oid = .ok st3) :
    (∀ q, estoqueOf st3 q = estoqueOf st q) ∧
    findPedido st3 oid = none ∧
    itensOf st3 oid = [] := by
  obtain ⟨e1, e2⟩ := create_establishes st cid items st1 oid hwf hc
  obtain ⟨u1, u2⟩ := updates_conserve oid ds st1 st2 e2 hds hu
  obtain ⟨r1, r2, r3⟩ := delete_restores st2 oid st3 hd
  refine ⟨?_, r2, r3⟩
  intro q
  rw [r1 q, u1 q, e1 q]


theorem create_success_witness :
    (1 : Nat) = (lojaStore 10).nextPedidoId ∧
    (∃ t, findPedido w5Store 1 = some ⟨1, 1, Status.PENDENTE, t⟩) ∧
    ((itensOf w5Store 1).map (fun i => (i.produtoId, i.quantidade)) =
      [(⟨1, 3⟩ : CreateItem)].map (fun c => (c.produtoId, c.quantidade))) ∧
    (∀ q, estoqueOf w5Store q =
      (estoqueOf (lojaStore 10) q).map (fun e => e - reqQty [⟨1, 3⟩] q)) ∧
    sumEstoque w5Store = sumEstoque (lojaStore 10) - (totalQty [⟨1, 3⟩] : Int) :=
  create_success_effects (lojaStore 10) 1 [⟨1, 3⟩] w5Store 1
    (by decide) (by decide) (by decide) rfl


theorem create_update_delete_witness :
    ((∀ q, estoqueOf w8Store3 q = estoqueOf (lojaStore 10) q) ∧
      findPedido w8Store3 1 = none ∧ itensOf w8Store3 1 = []) ∧
    estoqueOf w5Store 1 = some 7 ∧
    estoqueOf w8Store2 1 = some 5 ∧
    estoqueOf w8Store3 1 = some 10 :=
  ⟨create_update_delete_restores_stock (lojaStore 10) 1 [⟨1, 3⟩] [w8Data]
      w5Store w8Store2 w8Store3 1 (by decide) (by decide) rfl rfl rfl,
   by decide, by decide, by decide⟩

/-! ## Claim C6: the update reconciliation, line by line -/


theorem sum_map_filter_not (p : PedidoItem → Bool) (f : PedidoItem → Int) :
    ∀ l : List PedidoItem,
      ((l.filter (fun i => !(p i))).map f).sum = (l.map f).sum - ((l.filter p).map f).sum := by
  intro l
  induction l with
  | nil => simp
  | cons a rest ih =>
    by_cases ha : p a = true
    · simp only [List.filter_cons, ha, Bool.not_true, Bool.false_eq_true, if_false,
        if_true, List.map_cons, List.sum_cons, ih]
      ring
    · rw [Bool.not_eq_true] at ha
      simp only [List.filter_cons, ha, Bool.not_false, Bool.false_eq_true, if_false,
        if_true, List.map_cons, List.sum_cons, ih]
      ring

theorem mem_id_unique {l : List PedidoItem}
    (hn : (l.map (fun i => i.id)).Nodup) {a b : PedidoItem}
    (ha : a ∈ l) (hb : b ∈ l) (hid : a.id = b.id) : a = b := by
  induction l with
  | nil => simp at ha
  | cons x rest ih =>
    rw [List.map_cons, List.nodup_cons] at hn
    rcases List.mem_cons.1 ha with rfl | ha'
    · rcases List.mem_cons.1 hb with rfl | hb'
      · rfl
      · exact absurd (hid ▸ List.mem_map_of_mem (fun i => i.id) hb') hn.1
    · rcases List.mem_cons.1 hb with rfl | hb'
      · exact absurd (hid ▸ List.mem_map_of_mem (fun i => i.id) ha') hn.1
      · exact ih hn.2 ha' hb'

theorem processarItens_persist (L : List PedidoItem) (oid : Nat) :
    ∀ (ts : List UpdateItem) (stc st3 : Store) (i : PedidoItem),
      processarItens L oid stc ts = .ok st3 →
      i ∈ stc.itens →
      (∀ t ∈ ts, ∀ l, matchOf L t = some l → l.id ≠ i.id) →
      i ∈ st3.itens := by
  intro ts
  induction ts with
  | nil =>
    intro stc st3 i h hi _
    have : stc = st3 := by simpa [processarItens] using h
    subst this
    exact hi
  | cons t rest ih =>
    intro stc st3 i h hi hne
    cases hstep : processarItem L oid stc t with
    | error e => simp [processarItens, hstep] at h
    | ok stc' =>
      have h' : processarItens L oid stc' rest = .ok st3 := by
        simpa [processarItens, hstep] using h
      have hi' : i ∈ stc'.itens := by
        cases hm : matchOf L t with
        | none =>
          cases hp : findProduto stc t.produtoId with
          | none => simp [processarItem, hm, hp] at hstep
          | some p =>
            by_cases hs : p.estoque < (t.quantidade : Int)
            · simp [processarItem, hm, hp, if_pos hs] at hstep
            · simp only [processarItem, hm, hp, if_neg hs, Except.ok.injEq] at hstep
              subst hstep
              show i ∈ stc.itens ++ _
              exact List.mem_append_left _ hi
        | some l =>
          cases hp : findProduto stc l.produtoId with
          | none => simp [processarItem, hm, hp] at hstep
          | some p =>
            simp only [processarItem, hm, hp] at hstep
            by_cases hs : ((t.quantidade : Int) - (l.quantidade : Int) > 0 ∧
                p.estoque < (t.quantidade : Int) - (l.quantidade : Int))
            · rw [if_pos hs] at hstep
              exact absurd hstep (by simp)
            · rw [if_neg hs] at hstep
              simp only [Except.ok.injEq] at hstep
              subst hstep
              show i ∈ stc.itens.map (fun j =>
                if j.id == l.id then { j with quantidade := t.quantidade } else j)
              have hne' : (i.id == l.id) = false := by
                rw [beq_eq_false_iff_ne]
                exact fun hc => (hne t (by simp) l hm) hc.symm
              have : (fun j : PedidoItem =>
                  if j.id == l.id then { j with quantidade := t.quantidade } else j) i = i := by
                simp only [hne', Bool.false_eq_true, if_false]
              rw [← this]
              exact List.mem_map_of_mem _ hi
      exact ih stc' st3 i h' hi' (fun t' ht' l' hml' => hne t' (List.mem_cons_of_mem _ ht') l' hml')

theorem processarItens_results (L : List PedidoItem) (oid : Nat) :
    ∀ (ts : List UpdateItem) (stc st3 : Store),
      processarItens L oid stc ts = .ok st3 →
      (sentIds ts).Nodup →
      (∀ l ∈ L, l.pedidoId = oid) →
      (∀ l ∈ L, 0 < l.id) →
      (∀ t ∈ ts, ∀ l, matchOf L t = some l → l ∈ stc.itens) →
      (stc.itens.map (fun i => i.id)).Nodup →
      (∀ i ∈ stc.itens, i.id < stc.nextItemId) →
      (∀ l ∈ L, l.id < stc.nextItemId) →
      (∀ t ∈ ts, ∀ l, matchOf L t = some l →
        ∃ i ∈ st3.itens, i.id = l.id ∧ i.pedidoId = oid ∧
          i.produtoId = l.produtoId ∧ i.quantidade = t.quantidade) ∧
      (∀ t ∈ ts, matchOf L t = none →
        ∃ i ∈ st3.itens, i.pedidoId = oid ∧
          i.produtoId = t.produtoId ∧ i.quantidade = t.quantidade) ∧
      (∀ i ∈ st3.itens, i.id ∈ stc.itens.map (fun j => j.id) ∨ stc.nextItemId ≤ i.id) ∧
      (∀ q, lineQty st3 oid q = lineQty stc oid q + tsDelta L ts q) := by
  intro ts
  induction ts with
  | nil =>
    intro stc st3 h _ _ _ _ hnd hbd hLbd
    have : stc = st3 := by simpa [processarItens] using h
    subst this
    refine ⟨?_, ?_, ?_, ?_⟩
    · intro t ht
      simp at ht
    · intro t ht
      simp at ht
    · intro i hi
      exact Or.inl (List.mem_map_of_mem _ hi)
    · intro q
      simp [tsDelta]
  | cons t rest ih =>
    intro stc st3 h hsent hLoid hL0 hmatch hnd hbd hLbd
    cases hstep : processarItem L oid stc t with
    | error e => simp [processarItens, hstep] at h
    | ok stc' =>
      have h' : processarItens L oid stc' rest = .ok st3 := by
        simpa [processarItens, hstep] using h
      have hsent' : (sentIds rest).Nodup := by
        unfold sentIds at hsent ⊢
        rw [List.filterMap_cons] at hsent
        cases htt : itemTruthyId t with
        | none => rwa [htt] at hsent
        | some n => rw [htt] at hsent; exact (List.nodup_cons.1 hsent).2
      -- no later target matches the line matched by the head target
      have hnolater : ∀ l0, matchOf L t = some l0 →
          ∀ t' ∈ rest, ∀ l', matchOf L t' = some l' → l'.id ≠ l0.id := by
        intro l0 hm0 t' ht' l' hml' hideq
        have hl0pos : 0 < l0.id := hL0 l0 (matchOf_mem hm0)
        have htid : itemTruthyId t = some l0.id := by
          unfold itemTruthyId
          rw [matchOf_id hm0]
          simp [Nat.pos_iff_ne_zero.1 hl0pos]
        have htid' : itemTruthyId t' = some l0.id := by
          unfold itemTruthyId
          rw [matchOf_id hml', hideq]
          simp [Nat.pos_iff_ne_zero.1 hl0pos]
        unfold sentIds at hsent
        rw [List.filterMap_cons, htid] at hsent
        exact (List.nodup_cons.1 hsent).1 (List.mem_filterMap.2 ⟨t', ht', htid'⟩)
      -- analyse the head step
      cases hm : matchOf L t with
      | none =>
        cases hp : findProduto stc t.produtoId with
        | none => simp [processarItem, hm, hp] at hstep
        | some p =>
          by_cases hs : p.estoque < (t.quantidade : Int)
          · simp [processarItem, hm, hp, if_pos hs] at hstep
          · simp only [processarItem, hm, hp, if_neg hs, Except.ok.injEq] at hstep
            subst hstep
            have hit' : ∀ x, x ∈ stc.itens ++
                [(⟨stc.nextItemId, oid, t.produtoId, t.quantidade⟩ : PedidoItem)] ↔
                x ∈ stc.itens ∨
                  x = ⟨stc.nextItemId, oid, t.produtoId, t.quantidade⟩ := by
              intro x
              simp [List.mem_append]
            have hmatch' : ∀ t' ∈ rest, ∀ l', matchOf L t' = some l' →
                l' ∈ stc.itens ++
                  [(⟨stc.nextItemId, oid, t.produtoId, t.quantidade⟩ : PedidoItem)] := by
              intro t' ht' l' hml'
              exact List.mem_append_left _
                (hmatch t' (List.mem_cons_of_mem _ ht') l' hml')
            have hnd' : ((stc.itens ++
                [(⟨stc.nextItemId, oid, t.produtoId, t.quantidade⟩ : PedidoItem)]).map
                  (fun i => i.id)).Nodup := by
              rw [List.map_append]
              refine List.Nodup.append hnd (by simp) ?_
              rw [List.disjoint_right]
              intro a ha
              simp only [List.map_cons, List.map_nil, List.mem_singleton] at ha
              subst ha
              intro hc
              obtain ⟨j, hj, hjid⟩ := List.mem_map.1 hc
              exact absurd hjid (Nat.ne_of_lt (hbd j hj))
            have hbd' : ∀ i ∈ stc.itens ++
                [(⟨stc.nextItemId, oid, t.produtoId, t.quantidade⟩ : PedidoItem)],
                i.id < stc.nextItemId + 1 := by
              intro i hi
              rcases List.mem_append.1 hi with hold | hnew
              · exact Nat.lt_succ_of_lt (hbd i hold)
              · simp only [List.mem_singleton] at hnew
                subst hnew
                exact Nat.lt_succ_self _
            have hLbd' : ∀ l ∈ L, l.id < stc.nextItemId + 1 :=
              fun l hl => Nat.lt_succ_of_lt (hLbd l hl)
            obtain ⟨i1, i2, i3, i4⟩ := ih _ st3 h' hsent' hLoid hL0 hmatch' hnd' hbd' hLbd'
            refine ⟨?_, ?_, ?_, ?_⟩
            · intro t' ht' l' hml'
              rcases List.mem_cons.1 ht' with rfl | ht''
              · rw [hm] at hml'
                cases hml'
              · exact i1 t' ht'' l' hml'
            · intro t' ht' hml'
              rcases List.mem_cons.1 ht' with rfl | ht''
              · -- the new line just created survives the rest of the loop
                refine ⟨⟨stc.nextItemId, oid, t'.produtoId, t'.quantidade⟩, ?_, rfl, rfl, rfl⟩
                apply processarItens_persist L oid rest _ st3 _ h'
                · exact List.mem_append_right _ (by simp)
                · intro t'' ht'' l'' hml''
                  exact Nat.ne_of_lt (hLbd l'' (matchOf_mem hml''))
              · exact i2 t' ht'' hml'
            · intro i hi
              rcases i3 i hi with hin | hge
              · obtain ⟨j, hj, hjid⟩ := List.mem_map.1 hin
                rcases List.mem_append.1 hj with hold | hnew
                · exact Or.inl (hjid ▸ List.mem_map_of_mem _ hold)
                · simp only [List.mem_singleton] at hnew
                  subst hnew
                  exact Or.inr (le_of_eq hjid)
              · exact Or.inr (le_of_lt (Nat.lt_of_lt_of_le (Nat.lt_succ_self _) hge))
            · intro q
              rw [i4 q]
              have hlq : lineQty (ajustarEstoque
                  { stc with
                    itens := stc.itens ++ [⟨stc.nextItemId, oid, t.produtoId, t.quantidade⟩],
                    nextItemId := stc.nextItemId + 1 }
                  t.produtoId (-(t.quantidade : Int))) oid q =
                  lineQty stc oid q +
                    itemQty oid q ⟨stc.nextItemId, oid, t.produtoId, t.quantidade⟩ := by
                rw [lineQty_eq, lineQty_eq]
                show ((stc.itens ++ [(⟨stc.nextItemId, oid, t.produtoId, t.quantidade⟩ :
                  PedidoItem)]).map (itemQty oid q)).sum = _
                rw [List.map_append]
                simp
              rw [hlq]
              have htsd : tsDelta L (t :: rest) q =
                  (if t.produtoId == q then (t.quantidade : Int) else 0) +
                    tsDelta L rest q := by
                unfold tsDelta
                rw [List.map_cons, List.sum_cons, hm]
              rw [htsd]
              have hiq : itemQty oid q ⟨stc.nextItemId, oid, t.produtoId, t.quantidade⟩ =
                  if t.produtoId == q then (t.quantidade : Int) else 0 := by
                unfold itemQty
                rw [if_pos (by simp)]
              rw [hiq]
              ring
      | some l0 =>
        have hl0mem : l0 ∈ stc.itens := hmatch t (by simp) l0 hm
        have hl0oid : l0.pedidoId = oid := hLoid l0 (matchOf_mem hm)
        cases hp : findProduto stc l0.produtoId with
        | none => simp [processarItem, hm, hp] at hstep
        | some p =>
          simp only [processarItem, hm, hp] at hstep
          by_cases hs : ((t.quantidade : Int) - (l0.quantidade : Int) > 0 ∧
              p.estoque < (t.quantidade : Int) - (l0.quantidade : Int))
          · rw [if_pos hs] at hstep
            exact absurd hstep (by simp)
          · rw [if_neg hs] at hstep
            simp only [Except.ok.injEq] at hstep
            subst hstep
            have hids : (stc.itens.map (fun i =>
                if i.id == l0.id then { i with quantidade := t.quantidade } else i)).map
                  (fun i => i.id) = stc.itens.map (fun i => i.id) := by
              rw [List.map_map]
              apply List.map_congr_left
              intro i _
              by_cases hc : (i.id == l0.id) = true <;> simp [hc, Function.comp]
            have hmatch' : ∀ t' ∈ rest, ∀ l', matchOf L t' = some l' →
                l' ∈ stc.itens.map (fun i =>
                  if i.id == l0.id then { i with quantidade := t.quantidade } else i) := by
              intro t' ht' l' hml'
              have hl'mem := hmatch t' (List.mem_cons_of_mem _ ht') l' hml'
              have hne : (l'.id == l0.id) = false := by
                rw [beq_eq_false_iff_ne]
                exact hnolater l0 hm t' ht' l' hml'
              have hl'fix : (fun i : PedidoItem =>
                  if i.id == l0.id then { i with quantidade := t.quantidade } else i) l' = l' := by
                simp only [hne, Bool.false_eq_true, if_false]
              rw [← hl'fix]
              exact List.mem_map_of_mem _ hl'mem
            have hnd' : ((stc.itens.map (fun i =>
                if i.id == l0.id then { i with quantidade := t.quantidade } else i)).map
                  (fun i => i.id)).Nodup := by
              rw [hids]
              exact hnd
            have hbd' : ∀ i ∈ stc.itens.map (fun i =>
                if i.id == l0.id then { i with quantidade := t.quantidade } else i),
                i.id < stc.nextItemId := by
              intro i hi
              obtain ⟨j, hj, rfl⟩ := List.mem_map.1 hi
              by_cases hc : (j.id == l0.id) = true
              · simp only [hc, if_true]
                exact hbd j hj
              · simp only [hc, Bool.false_eq_true, if_false]
                exact hbd j hj
            obtain ⟨i1, i2, i3, i4⟩ := ih _ st3 h' hsent' hLoid hL0 hmatch' hnd' hbd' hLbd
            refine ⟨?_, ?_, ?_, ?_⟩
            · intro t' ht' l' hml'
              rcases List.mem_cons.1 ht' with rfl | ht''
              · rw [hm] at hml'
                injection hml' with hml''
                subst hml''
                refine ⟨{ l0 with quantidade := t'.quantidade }, ?_, rfl, hl0oid, rfl, rfl⟩
                apply processarItens_persist L oid rest _ st3 _ h'
                · have : (fun i : PedidoItem =>
                      if i.id == l0.id then { i with quantidade := t'.quantidade } else i) l0 =
                      { l0 with quantidade := t'.quantidade } := by
                    simp only [if_pos (show (l0.id == l0.id) = true by simp)]
                  rw [← this]
                  exact List.mem_map_of_mem _ hl0mem
                · intro t'' ht'' l'' hml''
                  exact hnolater l0 hm t'' ht'' l'' hml''
              · exact i1 t' ht'' l' hml'
            · intro t' ht' hml'
              rcases List.mem_cons.1 ht' with rfl | ht''
              · rw [hm] at hml'
                cases hml'
              · exact i2 t' ht'' hml'
            · intro i hi
              rcases i3 i hi with hin | hge
              · obtain ⟨j', hj', hjid⟩ := List.mem_map.1 hin
                obtain ⟨j, hj, rfl⟩ := List.mem_map.1 hj'
                have hjid2 : j.id = i.id := by
                  by_cases hc : (j.id == l0.id) = true
                  · simp only [hc, if_true] at hjid
                    exact hjid
                  · simp only [hc, Bool.false_eq_true, if_false] at hjid
                    exact hjid
                exact Or.inl (hjid2 ▸ List.mem_map_of_mem _ hj)
              · exact Or.inr hge
            · intro q
              rw [i4 q]
              have hlq : lineQty (ajustarEstoque
                  { stc with
                    itens := stc.itens.map (fun i =>
                      if i.id == l0.id then { i with quantidade := t.quantidade } else i) }
                  l0.produtoId (-((t.quantidade : Int) - (l0.quantidade : Int)))) oid q =
                  lineQty stc oid q - itemQty oid q l0 +
                    itemQty oid q { l0 with quantidade := t.quantidade } := by
                rw [lineQty_eq, lineQty_eq]
                exact sum_map_modify_by_id (itemQty oid q)
                  (fun i => { i with quantidade := t.quantidade }) (fun i => rfl)
                  stc.itens hnd l0 hl0mem
              rw [hlq]
              have htsd : tsDelta L (t :: rest) q =
                  (if l0.produtoId == q then
                    (t.quantidade : Int) - (l0.quantidade : Int) else 0) +
                    tsDelta L rest q := by
                unfold tsDelta
                rw [List.map_cons, List.sum_cons, hm]
              rw [htsd]
              by_cases hc : (l0.produtoId == q) = true
              · have hiq1 : itemQty oid q l0 = (l0.quantidade : Int) := by
                  unfold itemQty
                  rw [if_pos (by simp [hl0oid]), if_pos hc]
                have hiq2 : itemQty oid q { l0 with quantidade := t.quantidade } =
                    (t.quantidade : Int) := by
                  unfold itemQty
                  rw [if_pos (by simp [hl0oid]), if_pos hc]
                rw [hiq1, hiq2, if_pos hc]
                ring
              · rw [Bool.not_eq_true] at hc
                have hiq1 : itemQty oid q l0 = 0 := by
                  unfold itemQty
                  rw [if_pos (by simp [hl0oid])]
                  simp [hc]
                have hiq2 : itemQty oid q { l0 with quantidade := t.quantidade } = 0 := by
                  unfold itemQty
                  rw [if_pos (by simp [hl0oid])]
                  simp [hc]
                rw [hiq1, hiq2, hc]
                simp

theorem removerItens_estoque_untouched (L : List PedidoItem) (q : Nat) :
    ∀ (rids : List Nat) (stc : Store),
      (∀ rid ∈ rids, ∀ it, L.find? (fun i => i.id == rid) = some it → it.produtoId ≠ q) →
      estoqueOf (removerItens L stc rids) q = estoqueOf stc q := by
  intro rids
  induction rids with
  | nil =>
    intro stc _
    rfl
  | cons rid rest ih =>
    intro stc hdj
    cases hit : L.find? (fun i => i.id == rid) with
    | none =>
      have hstep : removerItens L stc (rid :: rest) = removerItens L stc rest := by
        simp only [removerItens, hit]
      rw [hstep]
      exact ih stc (fun r hr it h => hdj r (List.mem_cons_of_mem _ hr) it h)
    | some item =>
      have hstep : removerItens L stc (rid :: rest) =
          removerItens L
            { ajustarEstoque stc item.produtoId (item.quantidade : Int) with
              itens := (ajustarEstoque stc item.produtoId (item.quantidade : Int)).itens.filter
                (fun i => !(i.id == rid)) } rest := by
        simp only [removerItens, hit]
      rw [hstep, ih _ (fun r hr it h => hdj r (List.mem_cons_of_mem _ hr) it h)]
      have h1 : estoqueOf ({ ajustarEstoque stc item.produtoId (item.quantidade : Int) with
          itens := (ajustarEstoque stc item.produtoId (item.quantidade : Int)).itens.filter
            (fun i => !(i.id == rid)) } : Store) q =
          estoqueOf (ajustarEstoque stc item.produtoId (item.quantidade : Int)) q := rfl
      rw [h1, estoqueOf_ajustar,
        if_neg (fun hc => hdj rid (by simp) item hit hc.symm)]

theorem processarItem_estoque (L : List PedidoItem) (oid : Nat) (stc : Store)
    (t : UpdateItem) (stc' : Store) (h : processarItem L oid stc t = .ok stc')
    (r : Nat) (hr : r ≠ effProdId L t) :
    estoqueOf stc' r = estoqueOf stc r := by
  cases hm : matchOf L t with
  | none =>
    have heff : effProdId L t = t.produtoId := by simp only [effProdId, hm]
    rw [heff] at hr
    cases hp : findProduto stc t.produtoId with
    | none => simp [processarItem, hm, hp] at h
    | some p =>
      by_cases hs : p.estoque < (t.quantidade : Int)
      · simp [processarItem, hm, hp, if_pos hs] at h
      · simp only [processarItem, hm, hp, if_neg hs, Except.ok.injEq] at h
        subst h
        rw [estoqueOf_ajustar, if_neg hr]
        rfl
  | some l =>
    have heff : effProdId L t = l.produtoId := by simp only [effProdId, hm]
    rw [heff] at hr
    cases hp : findProduto stc l.produtoId with
    | none => simp [processarItem, hm, hp] at h
    | some p =>
      simp only [processarItem, hm, hp] at h
      by_cases hs : ((t.quantidade : Int) - (l.quantidade : Int) > 0 ∧
          p.estoque < (t.quantidade : Int) - (l.quantidade : Int))
      · rw [if_pos hs] at h
        exact absurd h (by simp)
      · rw [if_neg hs] at h
        simp only [Except.ok.injEq] at h
        subst h
        rw [estoqueOf_ajustar, if_neg hr]
        rfl

theorem processarItem_guard (L : List PedidoItem) (oid : Nat) (st0 stc : Store)
    (t : UpdateItem)
    (hest : estoqueOf stc (effProdId L t) = estoqueOf st0 (effProdId L t))
    (hex : (estoqueOf st0 (effProdId L t)).isSome) :
    (guardOk st0 L t = true → ∃ stc', processarItem L oid stc t = .ok stc') ∧
    (guardOk st0 L t = false → processarItem L oid stc t = .error "Estoque insuficiente") := by
  cases hm : matchOf L t with
  | none =>
    have heff : effProdId L t = t.produtoId := by simp only [effProdId, hm]
    rw [heff] at hest hex
    have hex' : (findProduto st0 t.produtoId).isSome := by
      unfold estoqueOf at hex
      cases hfp : findProduto st0 t.produtoId with
      | none => rw [hfp] at hex; simp at hex
      | some p => simp
    obtain ⟨p0, hp0⟩ := Option.isSome_iff_exists.1 hex'
    have hest0 : estoqueOf st0 t.produtoId = some p0.estoque := by
      unfold estoqueOf
      rw [hp0]
      rfl
    have hestc : estoqueOf stc t.produtoId = some p0.estoque := by rw [hest, hest0]
    have hfpc : ∃ p, findProduto stc t.produtoId = some p ∧ p.estoque = p0.estoque := by
      unfold estoqueOf at hestc
      cases hfp : findProduto stc t.produtoId with
      | none => rw [hfp] at hestc; simp at hestc
      | some p =>
        rw [hfp] at hestc
        refine ⟨p, rfl, ?_⟩
        simpa using hestc
    obtain ⟨p, hp, hpe⟩ := hfpc
    constructor
    · intro hg
      simp only [guardOk, hm, hp0] at hg
      have hle : (t.quantidade : Int) ≤ p0.estoque := of_decide_eq_true hg
      have hcond : ¬ p.estoque < (t.quantidade : Int) := by
        rw [hpe]
        exact not_lt.2 hle
      cases hres : processarItem L oid stc t with
      | ok s => exact ⟨s, rfl⟩
      | error e =>
        exfalso
        simp only [processarItem, hm, hp] at hres
        rw [if_neg hcond] at hres
        exact Except.noConfusion hres
    · intro hg
      simp only [guardOk, hm, hp0] at hg
      have hlt : ¬ ((t.quantidade : Int) ≤ p0.estoque) := of_decide_eq_false hg
      simp only [processarItem, hm, hp]
      rw [if_pos (show p.estoque < (t.quantidade : Int) by
        rw [hpe]; exact not_le.1 hlt)]
  | some l =>
    have heff : effProdId L t = l.produtoId := by simp only [effProdId, hm]
    rw [heff] at hest hex
    have hex' : (findProduto st0 l.produtoId).isSome := by
      unfold estoqueOf at hex
      cases hfp : findProduto st0 l.produtoId with
      | none => rw [hfp] at hex; simp at hex
      | some p => simp
    obtain ⟨p0, hp0⟩ := Option.isSome_iff_exists.1 hex'
    have hest0 : estoqueOf st0 l.produtoId = some p0.estoque := by
      unfold estoqueOf
      rw [hp0]
      rfl
    have hestc : estoqueOf stc l.produtoId = some p0.estoque := by rw [hest, hest0]
    have hfpc : ∃ p, findProduto stc l.produtoId = some p ∧ p.estoque = p0.estoque := by
      unfold estoqueOf at hestc
      cases hfp : findProduto stc l.produtoId with
      | none => rw [hfp] at hestc; simp at hestc
      | some p =>
        rw [hfp] at hestc
        refine ⟨p, rfl, ?_⟩
        simpa using hestc
    obtain ⟨p, hp, hpe⟩ := hfpc
    constructor
    · intro hg
      simp only [guardOk, hm, hp0] at hg
      have himp : (l.quantidade : Int) < (t.quantidade : Int) →
          (t.quantidade : Int) - (l.quantidade : Int) ≤ p0.estoque := of_decide_eq_true hg
      have hcond : ¬ ((t.quantidade : Int) - (l.quantidade : Int) > 0 ∧
          p.estoque < (t.quantidade : Int) - (l.quantidade : Int)) := by
        rintro ⟨h1, h2⟩
        have hlt : (l.quantidade : Int) < (t.quantidade : Int) := by omega
        have := himp hlt
        rw [hpe] at h2
        omega
      cases hres : processarItem L oid stc t with
      | ok s => exact ⟨s, rfl⟩
      | error e =>
        exfalso
        simp only [processarItem, hm, hp] at hres
        rw [if_neg hcond] at hres
        exact Except.noConfusion hres
    · intro hg
      simp only [guardOk, hm, hp0] at hg
      have hni : ¬ ((l.quantidade : Int) < (t.quantidade : Int) →
          (t.quantidade : Int) - (l.quantidade : Int) ≤ p0.estoque) := of_decide_eq_false hg
      obtain ⟨hlt, hnle⟩ := Classical.not_imp.1 hni
      simp only [processarItem, hm, hp]
      rw [if_pos (show ((t.quantidade : Int) - (l.quantidade : Int) > 0 ∧
          p.estoque < (t.quantidade : Int) - (l.quantidade : Int)) by
        constructor
        · omega
        · rw [hpe]; omega)]

theorem processarItens_guards (L : List PedidoItem) (oid : Nat) (st0 : Store) :
    ∀ (ts : List UpdateItem) (stc : Store),
      (∀ t ∈ ts, estoqueOf stc (effProdId L t) = estoqueOf st0 (effProdId L t)) →
      (∀ t ∈ ts, (estoqueOf st0 (effProdId L t)).isSome) →
      (ts.map (effProdId L)).Nodup →
      ((∀ t ∈ ts, guardOk st0 L t = true) →
        ∃ st3, processarItens L oid stc ts = .ok st3) ∧
      ((¬ ∀ t ∈ ts, guardOk st0 L t = true) →
        processarItens L oid stc ts = .error "Estoque insuficiente") := by
  intro ts
  induction ts with
  | nil =>
    intro stc _ _ _
    refine ⟨fun _ => ⟨stc, rfl⟩, fun hn => ?_⟩
    exact absurd (fun t ht => absurd ht (List.not_mem_nil t)) hn
  | cons t rest ih =>
    intro stc hinv hex hnd
    obtain ⟨hgs, hgf⟩ :=
      processarItem_guard L oid st0 stc t (hinv t (by simp)) (hex t (by simp))
    rw [List.map_cons, List.nodup_cons] at hnd
    cases hg : guardOk st0 L t with
    | true =>
      obtain ⟨stc', hok⟩ := hgs hg
      have hinv' : ∀ t' ∈ rest,
          estoqueOf stc' (effProdId L t') = estoqueOf st0 (effProdId L t') := by
        intro t' ht'
        have hne : effProdId L t' ≠ effProdId L t := by
          intro hc
          exact hnd.1 (hc ▸ List.mem_map_of_mem _ ht')
        rw [processarItem_estoque L oid stc t stc' hok _ hne]
        exact hinv t' (List.mem_cons_of_mem _ ht')
      obtain ⟨ihs, ihf⟩ :=
        ih stc' hinv' (fun t' ht' => hex t' (List.mem_cons_of_mem _ ht')) hnd.2
      constructor
      · intro hall
        obtain ⟨st3, h3⟩ := ihs (fun t' ht' => hall t' (List.mem_cons_of_mem _ ht'))
        refine ⟨st3, ?_⟩
        simp only [processarItens, hok]
        exact h3
      · intro hnall
        have hnrest : ¬ ∀ t' ∈ rest, guardOk st0 L t' = true := by
          intro hrest
          apply hnall
          intro t' ht'
          rcases List.mem_cons.1 ht' with rfl | hmem
          · exact hg
          · exact hrest t' hmem
        simp only [processarItens, hok]
        exact ihf hnrest
    | false =>
      have herr := hgf hg
      constructor
      · intro hall
        exact absurd (hall t (by simp)) (by simp [hg])
      · intro _
        simp only [processarItens, herr]

theorem sum_map_filter_not_contains (rids : List Nat) (f : PedidoItem → Int)
    (l : List PedidoItem) :
    ((l.filter (fun i => !(rids.contains i.id))).map f).sum =
      (l.map f).sum - ((l.filter (fun i => rids.contains i.id)).map f).sum :=
  sum_map_filter_not (fun i => rids.contains i.id) f l

theorem sum_map_congr_mem {f g : PedidoItem → Int} :
    ∀ l : List PedidoItem, (∀ i ∈ l, f i = g i) → (l.map f).sum = (l.map g).sum := by
  intro l h
  rw [List.map_congr_left h]

theorem reconcile_core (st st1 : Store) (oid : Nat) (ts : List UpdateItem)
    (hwf : Wf st)
    (h1itens : st1.itens = st.itens)
    (h1prod : st1.produtos = st.produtos)
    (h1np : st1.nextPedidoId = st.nextPedidoId)
    (h1ni : st1.nextItemId = st.nextItemId)
    (hsent : (sentIds ts).Nodup)
    (heff : (ts.map (effProdId (itensOf st oid))).Nodup)
    (hex : ∀ t ∈ ts, (estoqueOf st (effProdId (itensOf st oid) t)).isSome)
    (hdisj : ∀ t ∈ ts, ∀ l ∈ removedLines st oid ts,
      effProdId (itensOf st oid) t ≠ l.produtoId)
    (hoidb : oid < st.nextPedidoId) :
    ((∀ t ∈ ts, guardOk st (itensOf st oid) t = true) →
      ∃ st3, processarItens (itensOf st oid) oid
          (removerItens (itensOf st oid) st1
            (((itensOf st oid).map (fun i => i.id)).filter
              (fun x => !((ts.filterMap itemTruthyId).contains x)))) ts = .ok st3 ∧
        (∀ q, estoqueOf st3 q = (estoqueOf st q).map
          (fun e => e + remQty st oid ts q - tsDelta (itensOf st oid) ts q)) ∧
        (∀ l ∈ removedLines st oid ts, ∀ i ∈ st3.itens, i.id ≠ l.id) ∧
        (∀ t ∈ ts, ∀ l, matchOf (itensOf st oid) t = some l →
          ∃ i ∈ st3.itens, i.id = l.id ∧ i.pedidoId = oid ∧
            i.produtoId = l.produtoId ∧ i.quantidade = t.quantidade) ∧
        (∀ t ∈ ts, matchOf (itensOf st oid) t = none →
          ∃ i ∈ st3.itens, i.pedidoId = oid ∧
            i.produtoId = t.produtoId ∧ i.quantidade = t.quantidade)) ∧
    ((¬ ∀ t ∈ ts, guardOk st (itensOf st oid) t = true) →
      processarItens (itensOf st oid) oid
          (removerItens (itensOf st oid) st1
            (((itensOf st oid).map (fun i => i.id)).filter
              (fun x => !((ts.filterMap itemTruthyId).contains x)))) ts =
        .error "Estoque insuficiente") := by
  obtain ⟨w1, w2, w3, w4, w5, w6, w7, w8⟩ := hwf
  have hLsub : ∀ l ∈ itensOf st oid, l ∈ st.itens :=
    fun l hl => (List.mem_filter.1 hl).1
  have hLoid : ∀ l ∈ itensOf st oid, l.pedidoId = oid := by
    intro l hl
    have := (List.mem_filter.1 hl).2
    simpa using this
  have hL0 : ∀ l ∈ itensOf st oid, 0 < l.id := fun l hl => w7 l (hLsub l hl)
  have hLnodup : ((itensOf st oid).map (fun i => i.id)).Nodup :=
    w2.sublist (List.Sublist.map _ (List.filter_sublist _))
  set rids := ((itensOf st oid).map (fun i => i.id)).filter
    (fun x => !((ts.filterMap itemTruthyId).contains x)) with hrids
  have hremnodup : rids.Nodup := hLnodup.filter _
  have hremfind : ∀ rid ∈ rids,
      ((itensOf st oid).find? (fun i => i.id == rid)).isSome := by
    intro rid hr
    rw [hrids] at hr
    have hr' : rid ∈ (itensOf st oid).map (fun i => i.id) :=
      List.mem_of_mem_filter hr
    obtain ⟨l, hl, hlid⟩ := List.mem_map.1 hr'
    exact List.find?_isSome.2 ⟨l, hl, by simp [hlid]⟩
  have hremsub : ∀ rid ∈ rids, ∀ it,
      (itensOf st oid).find? (fun i => i.id == rid) = some it →
      it ∈ st1.itens ∧ it.pedidoId = oid := by
    intro rid hr it hit
    have hmem := List.mem_of_find?_eq_some hit
    rw [h1itens]
    exact ⟨hLsub it hmem, hLoid it hmem⟩
  have h1itnodup : (st1.itens.map (fun i => i.id)).Nodup := by
    rw [h1itens]
    exact w2
  obtain ⟨r1, r2, r3, r4, r5, r6, r7, r8⟩ :=
    removerItens_effects (itensOf st oid) oid rids st1
      hremnodup hremfind hremsub h1itnodup
  set st2 := removerItens (itensOf st oid) st1 rids with hst2
  have h1est : ∀ r, estoqueOf st1 r = estoqueOf st r := by
    intro r
    unfold estoqueOf findProduto
    rw [h1prod]
  have hfoundrem : ∀ rid ∈ rids, ∀ it,
      (itensOf st oid).find? (fun i => i.id == rid) = some it →
      it ∈ removedLines st oid ts := by
    intro rid hr it hit
    have hmem := List.mem_of_find?_eq_some hit
    have hitid : it.id = rid := by simpa using List.find?_some hit
    unfold removedLines
    rw [List.mem_filter]
    refine ⟨hmem, ?_⟩
    rw [hrids] at hr
    have hfl := (List.mem_filter.1 hr).2
    unfold sentIds
    rw [hitid]
    exact hfl
  have hinv : ∀ t ∈ ts, estoqueOf st2 (effProdId (itensOf st oid) t) =
      estoqueOf st (effProdId (itensOf st oid) t) := by
    intro t ht
    have hdj : ∀ rid ∈ rids, ∀ it,
        (itensOf st oid).find? (fun i => i.id == rid) = some it →
        it.produtoId ≠ effProdId (itensOf st oid) t := by
      intro rid hr it hit hc
      exact hdisj t ht it (hfoundrem rid hr it hit) hc.symm
    rw [hst2, removerItens_estoque_untouched (itensOf st oid) _ rids st1 hdj]
    exact h1est _
  obtain ⟨hdsucc, hdfail⟩ :=
    processarItens_guards (itensOf st oid) oid st ts st2 hinv hex heff
  have hst2sub : ∀ i ∈ st2.itens, i ∈ st.itens := by
    intro i hi
    rw [r2, h1itens] at hi
    exact List.mem_of_mem_filter hi
  have hmatch2 : ∀ t ∈ ts, ∀ l, matchOf (itensOf st oid) t = some l →
      l ∈ st2.itens := by
    intro t ht l hml
    have hlL := matchOf_mem hml
    have hlid0 : 0 < l.id := hL0 l hlL
    have htid : itemTruthyId t = some l.id := by
      unfold itemTruthyId
      rw [matchOf_id hml]
      simp [Nat.pos_iff_ne_zero.1 hlid0]
    have hsentmem : l.id ∈ ts.filterMap itemTruthyId :=
      List.mem_filterMap.2 ⟨t, ht, htid⟩
    have hnotrem : l.id ∉ rids := by
      intro hmem
      rw [hrids] at hmem
      have hfl := (List.mem_filter.1 hmem).2
      rw [Bool.not_eq_eq_eq_not, Bool.not_true] at hfl
      have hT : (ts.filterMap itemTruthyId).contains l.id = true :=
        List.elem_iff.2 hsentmem
      rw [hT] at hfl
      simp at hfl
    rw [r2, h1itens, List.mem_filter]
    refine ⟨hLsub l hlL, ?_⟩
    cases hcc : rids.contains l.id with
    | false => rfl
    | true => exact absurd (List.elem_iff.1 hcc) hnotrem
  have h2nodup : (st2.itens.map (fun i => i.id)).Nodup := by
    rw [r2]
    exact h1itnodup.sublist (List.Sublist.map _ (List.filter_sublist _))
  have h2bound : ∀ i ∈ st2.itens, i.id < st2.nextItemId := by
    intro i hi
    rw [r6, h1ni]
    exact w4 i (hst2sub i hi)
  have hLbd2 : ∀ l ∈ itensOf st oid, l.id < st2.nextItemId := by
    intro l hl
    rw [r6, h1ni]
    exact w4 l (hLsub l hl)
  have hfind1 : ∀ r, findProduto st1 r = findProduto st r := by
    intro r
    unfold findProduto
    rw [h1prod]
  have h2pe : ∀ i ∈ st2.itens, (findProduto st2 i.produtoId).isSome := by
    intro i hi
    rw [r7, hfind1]
    exact w6 i (hst2sub i hi)
  have h2pb : ∀ i ∈ st2.itens, i.pedidoId < st2.nextPedidoId := by
    intro i hi
    rw [r5, h1np]
    exact w5 i (hst2sub i hi)
  have h2ob : oid < st2.nextPedidoId := by
    rw [r5, h1np]
    exact hoidb
  have h2pos : ∀ i ∈ st2.itens, 0 < i.id := fun i hi => w7 i (hst2sub i hi)
  have h2pc : 0 < st2.nextItemId := by
    rw [r6, h1ni]
    exact w8
  have hlq1 : ∀ q, lineQty st1 oid q = lineQty st oid q := by
    intro q
    unfold lineQty itensOf
    rw [h1itens]
  -- stock handed back by the removal phase, per product
  have hl2 : ∀ q, lineQty st2 oid q = lineQty st oid q - remQty st oid ts q := by
    intro q
    have hA : lineQty st2 oid q = lineQty st oid q -
        ((st.itens.filter (fun i => rids.contains i.id)).map (itemQty oid q)).sum := by
      rw [lineQty_eq, r2, h1itens, sum_map_filter_not_contains, ← lineQty_eq]
    have e1 : ((st.itens.filter (fun i => rids.contains i.id)).map (itemQty oid q)).sum =
        (st.itens.map (fun i =>
          if rids.contains i.id then itemQty oid q i else 0)).sum :=
      sum_map_filter_eq _ _ _
    have e2 : remQty st oid ts q = ((itensOf st oid).map (fun i =>
        if !((sentIds ts).contains i.id) then
          (if i.produtoId == q then (i.quantidade : Int) else 0) else 0)).sum := by
      unfold remQty removedLines
      exact sum_map_filter_eq _ _ _
    have e3 : ((itensOf st oid).map (fun i =>
        if !((sentIds ts).contains i.id) then
          (if i.produtoId == q then (i.quantidade : Int) else 0) else 0)).sum =
        (st.itens.map (fun i =>
          if i.pedidoId == oid then
            (if !((sentIds ts).contains i.id) then
              (if i.produtoId == q then (i.quantidade : Int) else 0) else 0) else 0)).sum := by
      unfold itensOf
      exact sum_map_filter_eq _ _ _
    rw [hA, e1, e2, e3]
    congr 1
    apply sum_map_congr_mem
    intro i hi
    by_cases ho : (i.pedidoId == oid) = true
    · by_cases hs : ((sentIds ts).contains i.id) = true
      · have hc : rids.contains i.id = false := by
          cases hcc : rids.contains i.id with
          | false => rfl
          | true =>
            exfalso
            have hmemr := List.elem_iff.1 hcc
            rw [hrids] at hmemr
            have hpred := (List.mem_filter.1 hmemr).2
            have hs' : (ts.filterMap itemTruthyId).contains i.id = true := hs
            rw [hs'] at hpred
            simp at hpred
        rw [hc, ho, hs]
        simp
      · rw [Bool.not_eq_true] at hs
        have hmemL : i ∈ itensOf st oid := by
          unfold itensOf
          rw [List.mem_filter]
          exact ⟨hi, ho⟩
        have hc : rids.contains i.id = true := by
          apply List.elem_iff.2
          rw [hrids, List.mem_filter]
          refine ⟨List.mem_map_of_mem _ hmemL, ?_⟩
          have hs' : (ts.filterMap itemTruthyId).contains i.id = false := hs
          rw [hs']
          rfl
        rw [hc, ho, hs]
        unfold itemQty
        rw [if_pos ho]
        simp
    · rw [Bool.not_eq_true] at ho
      have hc : rids.contains i.id = false := by
        cases hcc : rids.contains i.id with
        | false => rfl
        | true =>
          exfalso
          have hmemr := List.elem_iff.1 hcc
          rw [hrids, List.mem_filter] at hmemr
          obtain ⟨hmm, _⟩ := hmemr
          obtain ⟨j, hj, hjid⟩ := List.mem_map.1 hmm
          have hji : j = i := mem_id_unique w2 (hLsub j hj) hi hjid
          have hjo := hLoid j hj
          rw [hji] at hjo
          have hT : (i.pedidoId == oid) = true := by simp [hjo]
          rw [ho] at hT
          cases hT
      rw [hc, ho]
      simp
  constructor
  · intro hall
    obtain ⟨st3, hproc⟩ := hdsucc hall
    obtain ⟨k1, k2, k3, k4⟩ :=
      processarItens_results (itensOf st oid) oid ts st2 st3 hproc hsent
        hLoid hL0 hmatch2 h2nodup h2bound hLbd2
    obtain ⟨p1, p2, p3, p4, p5, p6, p7, p8, p9, p10, p11, p12⟩ :=
      processarItens_effects (itensOf st oid) oid ts st2 st3 hproc hsent
        hLoid hL0 hmatch2 h2nodup h2bound h2pe h2pb h2ob h2pos h2pc
    refine ⟨st3, hproc, ?_, ?_, k1, k2⟩
    · intro q
      have hcons : consVal st3 oid q = consVal st oid q := by
        rw [p1 q, r8 q]
        unfold consVal
        rw [h1est q]
        simp only [hlq1 q]
      cases hq : estoqueOf st q with
      | none =>
        have hc1 : consVal st oid q = none := by
          unfold consVal
          rw [hq]
          rfl
        rw [hc1] at hcons
        have h3n : estoqueOf st3 q = none := by
          unfold consVal at hcons
          exact Option.map_eq_none'.1 hcons
        rw [h3n]
        rfl
      | some e =>
        have hc1 : consVal st oid q = some (e + lineQty st oid q) := by
          unfold consVal
          rw [hq]
          rfl
        rw [hc1] at hcons
        unfold consVal at hcons
        obtain ⟨e3, he3, heq3⟩ := Option.map_eq_some'.1 hcons
        rw [he3]
        simp only [Option.map_some']
        congr 1
        have hq3 : lineQty st3 oid q = lineQty st oid q - remQty st oid ts q +
            tsDelta (itensOf st oid) ts q := by
          rw [k4 q, hl2 q]
        rw [hq3] at heq3
        omega
    · intro l hl i hi hideq
      have hlst : l ∈ st.itens := by
        unfold removedLines at hl
        exact hLsub l (List.mem_of_mem_filter hl)
      rcases k3 i hi with hin | hge
      · obtain ⟨j, hj, hjid⟩ := List.mem_map.1 hin
        have hjst : j ∈ st.itens := hst2sub j hj
        have hjl : j = l := mem_id_unique w2 hjst hlst (by rw [hjid, hideq])
        have hlrid : l.id ∈ rids := by
          unfold removedLines at hl
          have hpred := (List.mem_filter.1 hl).2
          rw [hrids, List.mem_filter]
          refine ⟨List.mem_map_of_mem _ (List.mem_of_mem_filter hl), ?_⟩
          unfold sentIds at hpred
          exact hpred
        have hj2 : j ∈ st1.itens.filter (fun i => !(rids.contains i.id)) := by
          rw [← r2]
          exact hj
        have hnotc : (!(rids.contains j.id)) = true := (List.mem_filter.1 hj2).2
        have hcf : rids.contains j.id = false := by simpa using hnotc
        have hmemc : rids.contains l.id = true := List.elem_iff.2 hlrid
        rw [hjl] at hcf
        rw [hcf] at hmemc
        cases hmemc
      · rw [r6, h1ni] at hge
        have hlb : l.id < st.nextItemId := w4 l hlst
        omega
  · intro hnall
    exact hdfail hnall

/-- **C6**: an update that supplies a target line set reconciles by line
identity.  Under the transaction's preconditions (well-formed store,
existing order, valid payload, no duplicate sent line ids, the targets
acting on pairwise distinct and existing products, none of which is also
touched by a removed line), the call succeeds exactly when every target
passes its stock guard — a new line needs `stock ≥ quantidade`, a kept
line needs `stock ≥ newQuantity - oldQuantity` only when that diff is
positive — and on success every product's stock is incremented by the
quantities of its removed lines and decremented by the signed deltas of
its kept lines and the quantities of its new lines, removed lines are
deleted, kept lines keep their id and product with the new quantity, and
new lines are created as sent; when some guard fails the call fails
with the InsufficientStock error. -/
theorem update_reconciliation (st : Store) (oid : Nat) (d : UpdateData)
    (ts : List UpdateItem)
    (hwf : Wf st)
    (hped : (findPedido st oid).isSome)
    (hdi : d.items = some ts)
    (hval : ts.all itemValido = true)
    (hsent : (sentIds ts).Nodup)
    (heff : (ts.map (effProdId (itensOf st oid))).Nodup)
    (hex : ∀ t ∈ ts, (estoqueOf st (effProdId (itensOf st oid) t)).isSome)
    (hdisj : ∀ t ∈ ts, ∀ l ∈ removedLines st oid ts,
      effProdId (itensOf st oid) t ≠ l.produtoId) :
    ((∀ t ∈ ts, guardOk st (itensOf st oid) t = true) →
      ∃ st', PedidoService.update st oid d = .ok st' ∧
        (∀ q, estoqueOf st' q = (estoqueOf st q).map
          (fun e => e + remQty st oid ts q - tsDelta (itensOf st oid) ts q)) ∧
        (∀ l ∈ removedLines st oid ts, ∀ i ∈ st'.itens, i.id ≠ l.id) ∧
        (∀ t ∈ ts, ∀ l, matchOf (itensOf st oid) t = some l →
          ∃ i ∈ st'.itens, i.id = l.id ∧ i.pedidoId = oid ∧
            i.produtoId = l.produtoId ∧ i.quantidade = t.quantidade) ∧
        (∀ t ∈ ts, matchOf (itensOf st oid) t = none →
          ∃ i ∈ st'.itens, i.pedidoId = oid ∧
            i.produtoId = t.produtoId ∧ i.quantidade = t.quantidade)) ∧
    ((¬ ∀ t ∈ ts, guardOk st (itensOf st oid) t = true) →
      PedidoService.update st oid d = .error "Estoque insuficiente") := by
  obtain ⟨ped0, hp0⟩ := Option.isSome_iff_exists.1 hped
  have hpar : parseUpdate d = true := by
    unfold parseUpdate
    rw [hdi]
    exact hval
  have hoidb : oid < st.nextPedidoId := by
    have hid := findPedido_eq_some_id hp0
    rw [← hid]
    exact hwf.2.2.1 ped0 (findPedido_mem hp0)
  have h1itens : ((match d.status with
      | some s => setStatus st oid s
      | none => st) : Store).itens = st.itens := by
    cases d.status <;> rfl
  have h1prod : ((match d.status with
      | some s => setStatus st oid s
      | none => st) : Store).produtos = st.produtos := by
    cases d.status <;> rfl
  have h1np : ((match d.status with
      | some s => setStatus st oid s
      | none => st) : Store).nextPedidoId = st.nextPedidoId := by
    cases d.status <;> rfl
  have h1ni : ((match d.status with
      | some s => setStatus st oid s
      | none => st) : Store).nextItemId = st.nextItemId := by
    cases d.status <;> rfl
  obtain ⟨hcsucc, hcfail⟩ :=
    reconcile_core st
      (match d.status with | some s => setStatus st oid s | none => st)
      oid ts hwf h1itens h1prod h1np h1ni hsent heff hex hdisj hoidb
  have hupd_eq : PedidoService.update st oid d =
      (processarItens (itensOf st oid) oid
        (removerItens (itensOf st oid)
          (match d.status with | some s => setStatus st oid s | none => st)
          (((itensOf st oid).map (fun i => i.id)).filter
            (fun x => !((ts.filterMap itemTruthyId).contains x)))) ts).map
        (fun st3 => setTotal st3 oid (computeTotal st3 oid)) := by
    simp only [PedidoService.update, hp0, if_pos hpar, hdi]
  constructor
  · intro hall
    obtain ⟨st3, hproc, hE, hR, hK, hN⟩ := hcsucc hall
    refine ⟨setTotal st3 oid (computeTotal st3 oid), ?_, ?_, ?_, ?_, ?_⟩
    · rw [hupd_eq, hproc]
      rfl
    · intro q
      exact hE q
    · intro l hl i hi
      exact hR l hl i hi
    · intro t ht l hml
      exact hK t ht l hml
    · intro t ht hml
      exact hN t ht hml
  · intro hnall
    rw [hupd_eq, hcfail hnall]
    rfl

theorem update_reconciliation_witness :
    ∃ st', PedidoService.update w5Store 1 w8Data = .ok st' ∧
      estoqueOf st' 1 = some 5 := by
  obtain ⟨st', hok, hE, hR, hK, hN⟩ :=
    (update_reconciliation w5Store 1 w8Data [⟨some 1, 1, 5⟩]
      (by decide) (by decide) rfl (by decide) (by decide) (by decide)
      (by decide) (by decide)).1 (by decide)
  refine ⟨st', hok, ?_⟩
  rw [hE 1]
  decide
